import Mathlib

/-!
# wechat-sdk: parameter validation, canonical signing and refund notifications

A shallow embedding of `we_client.go` (package `wechat_sdk`) and of
`dev/refundQuery.go` and `dev/refundResultNotify.go` (package `dev`), followed by
the properties proved about them.

Conventions of the embedding:

* a Go `map[string]interface{}` is an association list read by first match
  (`mapGet`), written by upsert (`mapSet`) and deleted from by `mapDelete`;
* a Go `string` is a Lean `String`, compared byte-wise on its UTF-8 encoding;
* a Go `error` is a value of `Err`; a run-time abort (failed type assertion, index
  out of range) is the outcome `Outcome.panic`;
* calls that leave the process (digest, signing, transport, decryption) are recorded
  in the trace of a `Run`;
* functions of the repository that are called but not defined in the three
  source files are fields of `ClientDeps`, `PayDeps` and `NotifyDeps`;
* the methods of the client are modelled one call at a time: a call on a mutex that
  is held does not return.
-/

namespace WechatSdk

/-! ## Values and bags -/

/-- A value stored in a bag (`interface{}` in the source): a string, an integer
or raw bytes. The nil interface is not a stored value; it is what reading an absent
key yields, `none` in `mapGet`. -/
inductive Value where
  | str (s : String)
  | int (n : Int)
  | bytes (b : List Nat)
  deriving DecidableEq, Repr

/-- The Go map `map[string]interface{}`. -/
abbrev Param := List (String × Value)

/-- The map type of decoded responses (`Params` in package `dev`). -/
abbrev Params := List (String × Value)

/-- Go `v, ok := m[k]`: `none` when the key is absent. -/
def mapGet : Param → String → Option Value
  | [], _ => none
  | (k', v) :: rest, k => if k' = k then some v else mapGet rest k

/-- Go `m[k] = v`. -/
def mapSet : Param → String → Value → Param
  | [], k, v => [(k, v)]
  | (k', v') :: rest, k, v =>
    if k' = k then (k, v) :: rest else (k', v') :: mapSet rest k v

/-- Go `delete(m, k)`. -/
def mapDelete (m : Param) (k : String) : Param :=
  m.filter (fun e => decide (e.1 ≠ k))

/-- The keys of a map. -/
def mapKeys (m : Param) : List String :=
  m.map Prod.fst

/-- Go `fmt.Sprintf("%v", x)` for an `interface{}` read from a map: a string prints
as itself, an integer in decimal, a byte slice as `[b1 b2 ...]`, and the nil
interface (a key that is absent) as `<nil>`. -/
def fmtV : Option Value → String
  | none => "<nil>"
  | some (.str s) => s
  | some (.int n) => toString n
  | some (.bytes b) => "[" ++ " ".intercalate (b.map toString) ++ "]"

/-! ## Byte-wise string order and `sort.Strings` -/

/-- The UTF-8 bytes of a string. -/
def utf8Bytes (s : String) : List Nat :=
  s.data.flatMap (fun c => (String.utf8EncodeChar c).map UInt8.toNat)

/-- Lexicographic `≤` on byte sequences. -/
def bytesLE : List Nat → List Nat → Bool
  | [], _ => true
  | _ :: _, [] => false
  | a :: as, b :: bs => decide (a < b) || (decide (a = b) && bytesLE as bs)

/-- Go `a <= b` on strings: byte-wise lexicographic comparison. -/
def strLE (a b : String) : Prop :=
  bytesLE (utf8Bytes a) (utf8Bytes b) = true

instance : DecidableRel strLE :=
  fun a b => inferInstanceAs (Decidable (bytesLE (utf8Bytes a) (utf8Bytes b) = true))

/-- Go `sort.Strings`: the strings in ascending byte-wise order. -/
def sortStrings (l : List String) : List String :=
  l.insertionSort strLE

/-! ## Errors, outcomes and traces -/

/-- Modelled from the spec: the errors of the decryption step (the source of
`util.AES256ECBDecrypt` is not among the files), one for each stage the
specification lists: malformed base64 is a decode error, a cipher-text whose length
is not a multiple of the block size a decrypt error, invalid padding bytes a padding
error. -/
inductive CryptoStage where
  | decode
  | decrypt
  | padding
  deriving DecidableEq, Repr

/-- A Go `error` value: a sentinel of package `e`, `errors.New msg`, or an error of
the decryption step. -/
inductive Err where
  | ErrorInitClient
  | ErrorNilParam
  | ErrCheckSign
  | new (msg : String)
  | crypto (stage : CryptoStage)
  deriving DecidableEq, Repr

/-- How a call ends: a value, a returned `error`, or a run-time abort. -/
inductive Outcome (α : Type) where
  | ok (a : α)
  | err (e : Err)
  | panic
  deriving DecidableEq, Repr

/-- A call that leaves the function under study. -/
inductive Event where
  /-- The digest `alg` (`signMd5` or `signHMACSHA256`) applied to `input`. -/
  | digest (alg : String) (input : String)
  /-- The method `Param.Sign(signType)` called on `bag`. -/
  | sign (bag : Param) (signType : String)
  /-- The bag `bag` serialized and handed to the transport. -/
  | post (url : String) (contentType : String) (bag : Param)
  /-- The signature of the response `bag` recomputed (`result.Sign(signType)`). -/
  | verify (bag : Param) (signType : String)
  /-- The function `util.AES256ECBDecrypt` called on `cipherText` with `key`. -/
  | decrypt (cipherText : List Nat) (key : List Nat)
  deriving DecidableEq, Repr

/-- The outcome of a call together with the events it caused, oldest first. -/
structure Run (α : Type) where
  trace : List Event
  out : Outcome α
  deriving DecidableEq, Repr

/-! ## `we_client.go` -/

/-- `UnifiedOrderMustParam`. -/
def UnifiedOrderMustParam : List String :=
  ["appid", "mch_id", "nonce_str", "sign", "body", "out_trade_no", "total_fee",
   "spbill_create_ip", "notify_url", "trade_type"]

/-- `UnifiedOrderOptionalParam`. -/
def UnifiedOrderOptionalParam : List String :=
  ["device_info", "sign_type", "detail", "attach", "fee_type", "time_start",
   "time_expire", "goods_tag", "limit_pay", "receipt"]

/-- The struct `myWeClient`; `params = none` is the nil map and `locked` is the
state of the embedded `sync.Mutex`. -/
structure myWeClient where
  locked : Bool
  params : Option Param
  appId : String
  appSecret : String
  mchId : String
  deriving DecidableEq, Repr

/-- The decoded response of the unified order; only its field `sign` is read. -/
structure unifiedOrder where
  sign : String
  fields : Param
  deriving DecidableEq, Repr

/-- What `we_client.go` calls and does not define. -/
structure ClientDeps where
  /-- The function `signMd5`. -/
  signMd5 : String → String
  /-- The function `signHMACSHA256`. -/
  signHMACSHA256 : String → String
  /-- Go `strings.ToUpper`. -/
  ToUpper : String → String
  /-- The function `postUnifiedOrder url contentType`, applied to the bag whose
  serialization `maps(params).marshalXML` is the request body. -/
  postUnifiedOrder : String → String → Param → Except Err unifiedOrder
  /-- The constant `e.UnifiedOrderApiUrl`. -/
  UnifiedOrderApiUrl : String

/-- `NewClientWithParam`. -/
def NewClientWithParam (appId appSecret mchId : String) : myWeClient :=
  { locked := false, params := some [], appId := appId, appSecret := appSecret, mchId := mchId }

/-- `SetParams`; `none` when the call blocks on a mutex that is already held. -/
def SetParams (client : myWeClient) (param : Option Param) : Option myWeClient :=
  if client.locked then none
  else
    let client := { client with locked := true }
    let client :=
      match param with
      | some p => { client with params := some p }
      | none => client
    some { client with locked := false }

/-- `AddParam`; `none` when the call blocks on a mutex that is already held. -/
def AddParam (client : myWeClient) (key : String) (value : Value) : Option myWeClient :=
  if client.locked then none
  else
    let client := { client with locked := true }
    let client :=
      match client.params with
      | none => { client with params := some [] }
      | some _ => client
    let client := { client with params := client.params.map (fun p => mapSet p key value) }
    some { client with locked := false }

/-- `AddParams`; `none` when the call blocks on a mutex that is already held. -/
def AddParams (client : myWeClient) (params : Option Param) : Option myWeClient :=
  if client.locked then none
  else
    let client := { client with locked := true }
    let client :=
      match client.params with
      | none => { client with params := some [] }
      | some _ => client
    let client :=
      match params with
      | some ps =>
        { client with
          params := client.params.map (fun p => ps.foldl (fun (acc : Param) (kv : String × Value) => mapSet acc kv.1 kv.2) p) }
      | none => client
    some { client with locked := false }

/-- `DelParam`; `none` when the call blocks on a mutex that is already held. The
branch for a nil map returns without unlocking. -/
def DelParam (client : myWeClient) (key : String) : Option myWeClient :=
  if client.locked then none
  else
    let client := { client with locked := true }
    match client.params with
    | none => some client
    | some p => some { client with params := some (mapDelete p key), locked := false }

/-- `checkBaseParam`: `none` is the nil error. -/
def checkBaseParam (client : myWeClient) : Option Err :=
  if client.appId = "" ∨ client.appSecret = "" ∨ client.mchId = "" then
    some Err.ErrorInitClient
  else none

/-- `DoUnifiedOrder`, lines 242-253: the loop over `UnifiedOrderMustParam`. -/
def mustLoop (cp : Param) : List String → Param → List String → Except Err (Param × List String)
  | [], params, paramNames => .ok (params, paramNames)
  | k :: ks, params, paramNames =>
    if k = "sign" then mustLoop cp ks params paramNames
    else
      match mapGet cp k with
      | none => .error (Err.new ("lack of param: " ++ k))
      | some v => mustLoop cp ks (mapSet params k v) (paramNames ++ [k])

/-- `DoUnifiedOrder`, lines 255-260: the loop over `UnifiedOrderOptionalParam`. -/
def optionalLoop (cp : Param) : List String → Param → List String → Param × List String
  | [], params, paramNames => (params, paramNames)
  | k :: ks, params, paramNames =>
    match mapGet cp k with
    | some v => optionalLoop cp ks (mapSet params k v) (paramNames ++ [k])
    | none => optionalLoop cp ks params paramNames

/-- `DoUnifiedOrder`, lines 267-275: the loop that joins the pairs; `i` is the
loop index and `toBeSignStr` the string built so far. -/
def joinLoop (params : Param) : List String → Nat → String → String
  | [], _, toBeSignStr => toBeSignStr
  | n :: ns, i, toBeSignStr =>
    let str :=
      if i = 0 then n ++ "=" ++ fmtV (mapGet params n)
      else "&" ++ n ++ "=" ++ fmtV (mapGet params n)
    joinLoop params ns (i + 1) (toBeSignStr ++ str)

/-- `DoUnifiedOrder`, lines 240-260: the request bag and the names copied into it,
or the error of the first missing required parameter. -/
def unifiedOrderParams (cp : Param) : Except Err (Param × List String) :=
  match mustLoop cp UnifiedOrderMustParam [] [] with
  | .error e => .error e
  | .ok (params, paramNames) => .ok (optionalLoop cp UnifiedOrderOptionalParam params paramNames)

/-- `DoUnifiedOrder`, lines 262-278: the string that is handed to the digest. -/
def unifiedOrderToBeSignStr (params : Param) (paramNames : List String) (appSecret : String) :
    String :=
  joinLoop params (sortStrings paramNames) 0 "" ++ ("&key=" ++ appSecret)

/-- `DoUnifiedOrder`, lines 279-289: the digest chosen, the bag after `sign_type`
and `sign` are stored, and the signature. The type assertion `signType.(string)`
aborts on a value that is not a string. -/
def unifiedOrderSign (d : ClientDeps) (params : Param) (toBeSignStr : String) :
    Outcome (String × Param × String) :=
  let md5 : Outcome (String × Param × String) :=
    let signValue := d.ToUpper (d.signMd5 toBeSignStr)
    .ok ("MD5", mapSet (mapSet params "sign_type" (.str "MD5")) "sign" (.str signValue), signValue)
  match mapGet params "sign_type" with
  | none => md5
  | some (.str signType) =>
    if signType = "HMAC-SHA256" then
      let signValue := d.ToUpper (d.signHMACSHA256 toBeSignStr)
      .ok ("HMAC-SHA256", mapSet params "sign" (.str signValue), signValue)
    else md5
  | some _ => .panic

/-- `DoUnifiedOrder`. -/
def DoUnifiedOrder (d : ClientDeps) (client : myWeClient) : Run unifiedOrder :=
  match checkBaseParam client with
  | some e => ⟨[], .err e⟩
  | none =>
    match client.params with
    | none => ⟨[], .err Err.ErrorNilParam⟩
    | some cp =>
      match unifiedOrderParams cp with
      | .error e => ⟨[], .err e⟩
      | .ok (params, paramNames) =>
        let toBeSignStr := unifiedOrderToBeSignStr params paramNames client.appSecret
        match unifiedOrderSign d params toBeSignStr with
        | .panic => ⟨[], .panic⟩
        | .err e => ⟨[], .err e⟩
        | .ok (alg, params, signValue) =>
          let trace :=
            [Event.digest alg toBeSignStr,
             Event.post d.UnifiedOrderApiUrl "application/xml;charset=utf-8" params]
          match d.postUnifiedOrder d.UnifiedOrderApiUrl "application/xml;charset=utf-8" params with
          | .error e => ⟨trace, .err e⟩
          | .ok result =>
            if result.sign ≠ signValue then ⟨trace, .err (Err.new "sign wrong")⟩
            else ⟨trace, .ok result⟩

/-! ## `dev/refundQuery.go` -/

/-- `refundQueryMustParam`. -/
def refundQueryMustParam : List String := ["appid", "mch_id", "nonce_str", "sign"]

/-- `refundQueryOneParam`. -/
def refundQueryOneParam : List String :=
  ["transaction_id", "out_trade_no", "out_refund_no", "refund_id"]

/-- `refundQueryOptionalParam`. -/
def refundQueryOptionalParam : List String := ["sign_type", "offset"]

/-- `queryRefundUrl`. -/
def queryRefundUrl : String := "https://api.mch.weixin.qq.com/pay/refundquery"

/-- The fields of `myPayer` that the source reads. -/
structure myPayer where
  appId : String
  mchId : String
  apiKey : String
  deriving DecidableEq, Repr

/-- The struct `postRequest`. -/
structure postRequest where
  Body : String
  Url : String
  ContentType : String
  deriving DecidableEq, Repr

/-- What `dev/refundQuery.go` calls and does not define. -/
structure PayDeps where
  /-- The method `checkForPay` of the payer; `none` is the nil error. -/
  checkForPay : myPayer → Option Err
  /-- The constant `e.SignTypeMD5`. -/
  SignTypeMD5 : String
  /-- The method `Param.Sign(signType)`. -/
  Sign : Param → String → String
  /-- The method `Param.MarshalXML()`. -/
  MarshalXML : Param → Except Err String
  /-- The function `postToWx`. -/
  postToWx : postRequest → Except Err Params
  /-- The method `Sign(signType)` of the decoded response. -/
  ResultSign : Params → String → String

/-- Modelled from the spec: the method `Param.Add` (its source is not among the
files), the upsert `add(key, value)` of the value bag, which overwrites silently. -/
def ParamAdd (param : Param) (key : String) (value : Value) : Param :=
  mapSet param key value

/-- Modelled from the spec: the method `Param.Get` (its source is not among the
files), `get(key)`, the value stored under the key or absent (Go `nil`). -/
def ParamGet (param : Param) (key : String) : Option Value :=
  mapGet param key

/-- Modelled from the spec: the typed accessor `GetString` of a decoded response
(its source is not among the files); the source discards its second result and
reads the empty string when the key is absent or does not hold a string. -/
def GetString (result : Params) (key : String) : String :=
  match mapGet result key with
  | some (.str s) => s
  | _ => ""

/-- Modelled from the spec: `util.HaveInArray` (its source is not among the
files), the membership test behind "must belong to must ∪ one-of ∪ optional". -/
def HaveInArray (arr : List String) (k : String) : Bool :=
  decide (k ∈ arr)

/-- `RefundQuery`, lines 34-39: the loop that counts the one-of keys present. -/
def countOne (param : Param) : List String → Nat → Nat
  | [], count => count
  | k :: ks, count =>
    match ParamGet param k with
    | some _ => countOne param ks (count + 1)
    | none => countOne param ks count

/-- `RefundQuery`, lines 46-53: the loop over `refundQueryMustParam`; `none` when
every required key is present. -/
def checkMust (param : Param) : List String → Option Err
  | [] => none
  | k :: ks =>
    if k = "sign" then checkMust param ks
    else
      match ParamGet param k with
      | none => some (Err.new ("need " ++ k))
      | some _ => checkMust param ks

/-- `RefundQuery`, lines 55-62: the loop `for k := range param`, over the keys in
the order `range` yields them; the result is the signing algorithm read on the
way. The type assertion `param[k].(string)` aborts on a value that is not a
string. -/
def rangeLoop (param : Param) : List String → String → Outcome String
  | [], signType => .ok signType
  | k :: ks, signType =>
    let assigned : Option String :=
      if k = "sign_type" then
        match mapGet param k with
        | some (.str s) => some s
        | _ => none
      else some signType
    match assigned with
    | none => .panic
    | some signType =>
      if !HaveInArray refundQueryMustParam k && !HaveInArray refundQueryOptionalParam k
          && !HaveInArray refundQueryOneParam k then
        .err (Err.new ("no need " ++ k))
      else rangeLoop param ks signType

/-- `RefundQuery`, lines 30-31: the caller's bag with the identity of the payer
stored in it. -/
def withIdentity (m : myPayer) (param : Param) : Param :=
  ParamAdd (ParamAdd param "appid" (.str m.appId)) "mch_id" (.str m.mchId)

/-- `RefundQuery`, lines 24-62: everything before signing. `param = none` is the
nil map; `visit` is the order in which `range param` yields the keys, which Go
leaves unspecified. The result is the bag to sign and the signing algorithm. -/
def refundQueryValidate (d : PayDeps) (m : myPayer) (param : Option Param)
    (visit : List String) : Outcome (Param × String) :=
  match param with
  | none => .err (Err.new "param is empty")
  | some param =>
    match d.checkForPay m with
    | some e => .err e
    | none =>
      let param := withIdentity m param
      let count := countOne param refundQueryOneParam 0
      if count = 0 then
        .err (Err.new "need one of refund_id/out_refund_no/transaction_id/out_trade_no")
      else if count > 1 then
        .err (Err.new "more than one with refund_id/out_refund_no/transaction_id/out_trade_no")
      else
        match checkMust param refundQueryMustParam with
        | some e => .err e
        | none =>
          match rangeLoop param visit d.SignTypeMD5 with
          | .panic => .panic
          | .err e => .err e
          | .ok signType => .ok (param, signType)

/-- `RefundQuery`, lines 64-96: signing, sending and checking the response. -/
def refundQuerySend (d : PayDeps) (param : Param) (signType : String) : Run Params :=
  let sign := d.Sign param signType
  let signed := [Event.sign param signType]
  let param := ParamAdd param "sign" (.str sign)
  match d.MarshalXML param with
  | .error e => ⟨signed, .err e⟩
  | .ok reader =>
    let request : postRequest :=
      { Body := reader, Url := queryRefundUrl, ContentType := "application/xml;charset=utf-8" }
    let sent := signed ++ [Event.post request.Url request.ContentType param]
    match d.postToWx request with
    | .error e => ⟨sent, .err e⟩
    | .ok result =>
      if GetString result "return_code" ≠ "SUCCESS" then
        ⟨sent, .err (Err.new (GetString result "return_msg"))⟩
      else if GetString result "result_code" ≠ "SUCCESS" then
        ⟨sent, .err (Err.new (GetString result "err_code_des"))⟩
      else
        let sign := d.ResultSign result signType
        let verified := sent ++ [Event.verify result signType]
        if GetString result "sign" ≠ sign then ⟨verified, .err Err.ErrCheckSign⟩
        else ⟨verified, .ok result⟩

/-- `RefundQuery`. -/
def RefundQuery (d : PayDeps) (m : myPayer) (param : Option Param) (visit : List String) :
    Run Params :=
  match refundQueryValidate d m param visit with
  | .panic => ⟨[], .panic⟩
  | .err e => ⟨[], .err e⟩
  | .ok (param, signType) => refundQuerySend d param signType

/-- The list `visit` is an order in which `range` may yield the keys of `param`:
it holds exactly the keys of the map. -/
def RangeOrder (param : Param) (visit : List String) : Prop :=
  ∀ k, k ∈ visit ↔ mapGet param k ≠ none

/-! ## Reference definitions, worded as the specification -/

/-- One pair `key=value` of the canonical string. -/
def renderPair (bag : Param) (k : String) : String :=
  k ++ "=" ++ fmtV (mapGet bag k)

/-- The keys that enter the canonical string of the unified order, as the
specification lists them: every key of `UnifiedOrderMustParam` except `sign`,
together with every key of `UnifiedOrderOptionalParam` present in the client
parameter set. -/
def referenceKeys (cp : Param) : List String :=
  UnifiedOrderMustParam.filter (fun k => decide (k ≠ "sign")) ++
    UnifiedOrderOptionalParam.filter (fun k => (mapGet cp k).isSome)

/-- The canonical string of the unified order as the specification words it: the
keys sorted ascending, each rendered `key=value`, joined with `&`, followed by
`&key=` and the secret. -/
def referenceCanonical (cp : Param) (appSecret : String) : String :=
  "&".intercalate ((sortStrings (referenceKeys cp)).map (renderPair cp)) ++ "&key=" ++ appSecret

/-- The canonical string of a bag as the specification words it for a signed
envelope: the fields other than `sign`, sorted by key, rendered `key=value`,
joined with `&`, followed by `&key=` and the secret. -/
def canonicalString (bag : Param) (secret : String) : String :=
  "&".intercalate
    ((sortStrings ((mapKeys bag).filter (fun k => decide (k ≠ "sign")))).map (renderPair bag))
    ++ "&key=" ++ secret

/-- The canonical string of the unified order with step 1 of the specification's
signer applied: keys whose value is the empty string are dropped. -/
def referenceCanonicalNonEmpty (cp : Param) (appSecret : String) : String :=
  "&".intercalate
    ((sortStrings ((referenceKeys cp).filter (fun k => decide (mapGet cp k ≠ some (.str ""))))).map
      (renderPair cp))
    ++ "&key=" ++ appSecret

/-! ## Sample collaborators and inputs -/

/-- Collaborators for the unified order that make digests visible: each digest
wraps its input in its name, and the transport answers with the signature it was
sent. -/
def sampleClientDeps : ClientDeps :=
  { signMd5 := fun s => "md5(" ++ s ++ ")"
    signHMACSHA256 := fun s => "hmac(" ++ s ++ ")"
    ToUpper := fun s => "UP(" ++ s ++ ")"
    postUnifiedOrder := fun _ _ bag => .ok ⟨GetString bag "sign", []⟩
    UnifiedOrderApiUrl := "https://api.mch.weixin.qq.com/pay/unifiedorder" }

/-- A parameter set holding the nine required parameters and no optional one. -/
def sampleOrderParams : Param :=
  [("appid", .str "wx1"), ("mch_id", .str "m1"), ("nonce_str", .str "n1"), ("body", .str "b"),
   ("out_trade_no", .str "T1"), ("total_fee", .int 1), ("spbill_create_ip", .str "ip"),
   ("notify_url", .str "u"), ("trade_type", .str "JSAPI")]

/-- A client with identity `wx1`, secret `s` and merchant `m1` holding `params`. -/
def sampleClient (params : Param) : myWeClient :=
  { locked := false, params := some params, appId := "wx1", appSecret := "s", mchId := "m1" }

/-- The sample parameter set with the optional `attach` set to the empty string. -/
def sampleOrderParamsEmptyAttach : Param :=
  sampleOrderParams ++ [("attach", .str "")]

/-- The sample parameter set with a key of another operation, `openid`. -/
def sampleOrderParamsOpenid : Param :=
  sampleOrderParams ++ [("openid", .str "o1")]

/-- The sample parameter set with `sign_type` set to `HMAC-SHA256`. -/
def sampleOrderParamsHmac : Param :=
  sampleOrderParams ++ [("sign_type", .str "HMAC-SHA256")]

/-- The keys a refund query may hold, as the specification names them: the union
of the must, one-of and optional lists. -/
def refundQueryAllowed : List String :=
  refundQueryMustParam ++ refundQueryOneParam ++ refundQueryOptionalParam

/-- The number of one-of keys present in a bag. -/
def oneOfPresent (bag : Param) : Nat :=
  (refundQueryOneParam.filter (fun k => (mapGet bag k).isSome)).length

/-- The error of a refund query that holds none of the one-of keys. -/
def errNeedOneOf : Err :=
  Err.new "need one of refund_id/out_refund_no/transaction_id/out_trade_no"

/-- The error of a refund query that holds more than one of the one-of keys. -/
def errMoreThanOne : Err :=
  Err.new "more than one with refund_id/out_refund_no/transaction_id/out_trade_no"

/-- Collaborators for the refund query: an initialised payer, a signature that
names its algorithm, and a gateway that answers `FAIL` / `system busy`. -/
def samplePayDeps : PayDeps :=
  { checkForPay := fun _ => none
    SignTypeMD5 := "MD5"
    Sign := fun _ t => "sig:" ++ t
    MarshalXML := fun _ => .ok "<xml/>"
    postToWx := fun _ => .ok [("return_code", .str "FAIL"), ("return_msg", .str "system busy")]
    ResultSign := fun _ t => "sig:" ++ t }

/-- A payer with identity `wx1` and merchant `m1`. -/
def samplePayer : myPayer :=
  { appId := "wx1", mchId := "m1", apiKey := "s" }

/-- The bag of the refund-query scenario: `appid`, `mch_id` and `out_trade_no`. -/
def scenarioBag : Param :=
  [("appid", .str "wx1"), ("mch_id", .str "m1"), ("out_trade_no", .str "T1")]

/-- The bag of the scenario with `nonce_str` added. -/
def scenarioBagNonce : Param :=
  scenarioBag ++ [("nonce_str", .str "N1")]

/-- A bag holding two one-of keys and an unknown key, and no `nonce_str`. -/
def twoOneOfBag : Param :=
  [("out_trade_no", .str "T1"), ("refund_id", .str "R1"), ("colour", .str "red")]

/-- A bag holding one one-of key and an unknown key, and no `nonce_str`. -/
def unknownKeyBag : Param :=
  [("out_trade_no", .str "T1"), ("colour", .str "red")]

/-- A bag holding none of the one-of keys. -/
def noOneOfBag : Param :=
  [("nonce_str", .str "N1")]

/-- A bag that satisfies the one-of and must rules and holds the unknown key
`colour`. -/
def colourBag : Param :=
  [("nonce_str", .str "N1"), ("out_trade_no", .str "T1"), ("colour", .str "red")]

/-! ## Sequences of client operations -/

/-- One call of a method of the client that writes the parameter set. -/
inductive ClientOp where
  | setParams (param : Option Param)
  | addParam (key : String) (value : Value)
  | addParams (params : Option Param)
  | delParam (key : String)
  deriving DecidableEq, Repr

/-- The call `op` on `client`; `none` when the call does not return. -/
def applyOp (client : myWeClient) : ClientOp → Option myWeClient
  | .setParams param => SetParams client param
  | .addParam key value => AddParam client key value
  | .addParams params => AddParams client params
  | .delParam key => DelParam client key

/-- The calls `ops` one after the other on `client`. -/
def runOps (client : myWeClient) : List ClientOp → Option myWeClient
  | [] => some client
  | op :: ops =>
    match applyOp client op with
    | none => none
    | some client => runOps client ops

/-- Go `client.params[k]` read with `v, ok :=`: a nil map holds no key. -/
def clientGet (client : myWeClient) (k : String) : Option Value :=
  match client.params with
  | none => none
  | some p => mapGet p k

/-! ## `dev/refundResultNotify.go` -/

/-- The struct `refundNotifyResult`; the two `int64` fields are integers. -/
structure refundNotifyResult where
  ReturnCode : String
  ReturnMsg : String
  Appid : String
  MchId : String
  NonceStr : String
  ReqInfo : String
  TransactionId : String
  OutTradeNo : String
  RefundId : String
  OutRefundNo : String
  TotalFee : Int
  SettlementRefundFee : Int
  RefundStatus : String
  SuccessTime : String
  RefundRecvAccout : String
  RefundAccount : String
  RefundRequestSource : String
  deriving DecidableEq, Repr

/-- `Param` of `refundNotifyResult`: the switch on the key. -/
def refundNotifyResult.Param (r : refundNotifyResult) (key : String) : Except Err Value :=
  match key with
  | "return_code" => .ok (.str r.ReturnCode)
  | "return_msg" => .ok (.str r.ReturnMsg)
  | "appid" => .ok (.str r.Appid)
  | "mch_id" => .ok (.str r.MchId)
  | "nonce_str" => .ok (.str r.NonceStr)
  | "req_info" => .ok (.str r.ReqInfo)
  | "transaction_id" => .ok (.str r.TransactionId)
  | "out_trade_no" => .ok (.str r.OutTradeNo)
  | "total_fee" => .ok (.int r.TotalFee)
  | "refund_id" => .ok (.str r.RefundId)
  | "out_refund_no" => .ok (.str r.OutRefundNo)
  | "settlement_refund_fee" => .ok (.int r.SettlementRefundFee)
  | "refund_status" => .ok (.str r.RefundStatus)
  | "success_time" => .ok (.str r.SuccessTime)
  | "refund_recv_accout" => .ok (.str r.RefundRecvAccout)
  | "refund_account" => .ok (.str r.RefundAccount)
  | "refund_request_source" => .ok (.str r.RefundRequestSource)
  | _ => .error (Err.new ("invalid key: " ++ key))

/-- The value of a struct field as reflection sees it: a `string` or an `int64`. -/
inductive FieldVal where
  | s (v : String)
  | i (v : Int)
  deriving DecidableEq, Repr

/-- Go `reflect.Value.IsZero` on a `string` or an `int64`. -/
def FieldVal.IsZero : FieldVal → Bool
  | .s v => decide (v = "")
  | .i v => decide (v = 0)

/-- Go `reflect.Value.Interface`: the field boxed as an `interface{}`. -/
def FieldVal.Interface : FieldVal → Value
  | .s v => .str v
  | .i v => .int v

/-- The fields of the struct in declaration order, as `reflect.TypeOf(r)` and
`reflect.ValueOf(r)` give them: the struct tag and the value of each field. -/
def reflectFields (r : refundNotifyResult) : List (String × FieldVal) :=
  [("xml:\"return_code\"", .s r.ReturnCode),
   ("xml:\"return_msg\"", .s r.ReturnMsg),
   ("xml:\"appid\"", .s r.Appid),
   ("xml:\"mch_id\"", .s r.MchId),
   ("xml:\"nonce_str\"", .s r.NonceStr),
   ("xml:\"req_info\"", .s r.ReqInfo),
   ("xml:\"transaction_id\"", .s r.TransactionId),
   ("xml:\"out_trade_no\"", .s r.OutTradeNo),
   ("xml:\"refund_id\"", .s r.RefundId),
   ("xml:\"out_refund_no\"", .s r.OutRefundNo),
   ("xml:\"total_fee\"", .i r.TotalFee),
   ("xml:\"settlement_refund_fee\"", .i r.SettlementRefundFee),
   ("xml:\"refund_status\"", .s r.RefundStatus),
   ("xml:\"success_time\"", .s r.SuccessTime),
   ("xml:\"refund_recv_accout\"", .s r.RefundRecvAccout),
   ("xml:\"refund_account\"", .s r.RefundAccount),
   ("xml:\"refund_request_source\"", .s r.RefundRequestSource)]

/-- Go `strings.Split(s, sep)` for a separator of one character, on the characters
of the string; `cur` is the piece being read. -/
def splitOnChar (sep : Char) : List Char → List Char → List (List Char)
  | [], cur => [cur]
  | c :: cs, cur =>
    if c = sep then cur :: splitOnChar sep cs [] else splitOnChar sep cs (cur ++ [c])

/-- `ListParam`, line 87: `strings.Split(tag, "\"")[1]`; `none` when the index is out
of range. -/
def tagName (tag : String) : Option String :=
  ((splitOnChar '"' tag.data [])[1]?).map String.mk

/-- `ListParam`, lines 85-90: the loop over the fields; indexing out of range
aborts. -/
def listLoop : List (String × FieldVal) → Params → Outcome Params
  | [], p => .ok p
  | (tag, v) :: rest, p =>
    if !v.IsZero then
      match tagName tag with
      | none => .panic
      | some name => listLoop rest (mapSet p name v.Interface)
    else listLoop rest p

/-- `ListParam` of `refundNotifyResult`. -/
def refundNotifyResult.ListParam (r : refundNotifyResult) : Outcome Params :=
  listLoop (reflectFields r) []

/-- The alphabet of Go `base64.StdEncoding`. -/
def base64Alphabet : List Char :=
  "ABCDEFGHIJKLMNOPQRSTUVWXYZabcdefghijklmnopqrstuvwxyz0123456789+/".data

/-- The character of a six-bit value. -/
def base64Char (n : Nat) : Char :=
  base64Alphabet.getD n '='

/-- Go `base64.StdEncoding` on bytes: three bytes give four characters, and the
last group is padded with `=`. -/
def base64Encode : List Nat → List Char
  | [] => []
  | [a] => [base64Char (a / 4), base64Char (a % 4 * 16), '=', '=']
  | [a, b] =>
    [base64Char (a / 4), base64Char (a % 4 * 16 + b / 16), base64Char (b % 16 * 4), '=']
  | a :: b :: c :: rest =>
    base64Char (a / 4) :: base64Char (a % 4 * 16 + b / 16) ::
      base64Char (b % 16 * 4 + c / 64) :: base64Char (c % 64) :: base64Encode rest

/-- Go `base64.StdEncoding.EncodeToString`. -/
def EncodeToString (src : List Nat) : String :=
  String.mk (base64Encode src)

/-- What `dev/refundResultNotify.go` calls and does not define. -/
structure NotifyDeps where
  /-- Go `xml.NewDecoder(body).Decode(&result)` on the content of the body. -/
  xmlDecode : String → Except Err refundNotifyResult
  /-- The function `util.SignMd5`. -/
  SignMd5 : String → String
  /-- Go `strings.ToLower`. -/
  ToLower : String → String
  /-- The function `util.AES256ECBDecrypt cipherText key`; its errors are modelled
  from the spec, see `CryptoStage`. -/
  AES256ECBDecrypt : List Nat → List Nat → Except CryptoStage (List Nat)
  /-- Go `xml.Unmarshal(realData, &result)`: the record with the decoded fields
  written over it. -/
  xmlUnmarshal : List Nat → refundNotifyResult → Except Err refundNotifyResult

/-- The error of a notification without `req_info`. -/
def errNoReqInfo : Err :=
  Err.new "wx response without req_info"

/-- `RefundNotify`; `body = none` is the nil reader. -/
def RefundNotify (d : NotifyDeps) (m : myPayer) (body : Option String) :
    Run refundNotifyResult :=
  match body with
  | none => ⟨[], .err (Err.new "body is nil")⟩
  | some body =>
    match d.xmlDecode body with
    | .error e => ⟨[], .err e⟩
    | .ok result =>
      if result.ReqInfo = "" then ⟨[], .err (Err.new "wx response without req_info")⟩
      else
        let reqInfo := EncodeToString (utf8Bytes result.ReqInfo)
        let md5Key := d.ToLower (d.SignMd5 m.apiKey)
        let trace := [Event.decrypt (utf8Bytes reqInfo) (utf8Bytes md5Key)]
        match d.AES256ECBDecrypt (utf8Bytes reqInfo) (utf8Bytes md5Key) with
        | .error stage => ⟨trace, .err (Err.crypto stage)⟩
        | .ok realData =>
          match d.xmlUnmarshal realData result with
          | .error e => ⟨trace, .err e⟩
          | .ok result => ⟨trace, .ok result⟩

/-- Collaborators for the refund query whose gateway answers with both codes
`SUCCESS` and a signature that is not the recomputed one. -/
def badSignPayDeps : PayDeps :=
  { samplePayDeps with
    postToWx := fun _ =>
      .ok [("return_code", .str "SUCCESS"), ("result_code", .str "SUCCESS"),
           ("sign", .str "bad")] }

/-- The fields of a unified-order response other than `sign`. -/
def sampleResponseFields : Param :=
  [("return_code", .str "SUCCESS"), ("prepay_id", .str "p1")]

/-- Collaborators for the unified order whose gateway answers with the signature of
the request and fields of its own. -/
def echoOrderDeps : ClientDeps :=
  { sampleClientDeps with
    postUnifiedOrder := fun _ _ bag => .ok ⟨GetString bag "sign", sampleResponseFields⟩ }

/-- Collaborators for the unified order whose gateway signs its answer: the carried
`sign` is the upper-cased MD5 digest of the canonical string of the response's own
fields with the secret `s`. -/
def signingOrderDeps : ClientDeps :=
  { sampleClientDeps with
    postUnifiedOrder := fun _ _ _ =>
      .ok ⟨sampleClientDeps.ToUpper (sampleClientDeps.signMd5
        (canonicalString sampleResponseFields "s")), sampleResponseFields⟩ }

/-- The sample parameter set with `total_fee` held as the string `1` instead of the
integer `1`. -/
def sampleOrderParamsFeeText : Param :=
  mapSet sampleOrderParams "total_fee" (.str "1")

/-- The sample parameter set with `sign_type` holding an integer. -/
def sampleOrderParamsIntSignType : Param :=
  sampleOrderParams ++ [("sign_type", .int 1)]

/-- A refund-query bag that satisfies every rule and whose `sign_type` holds an
integer. -/
def intSignTypeBag : Param :=
  [("nonce_str", .str "N1"), ("out_trade_no", .str "T1"), ("sign_type", .int 1)]

/-- The sample parameter set with another `body`. -/
def sampleOrderParamsBody : Param :=
  mapSet sampleOrderParams "body" (.str "c")

/-- The record with every field at its zero value. -/
def zeroNotifyResult : refundNotifyResult :=
  { ReturnCode := "", ReturnMsg := "", Appid := "", MchId := "", NonceStr := "", ReqInfo := "",
    TransactionId := "", OutTradeNo := "", RefundId := "", OutRefundNo := "", TotalFee := 0,
    SettlementRefundFee := 0, RefundStatus := "", SuccessTime := "", RefundRecvAccout := "",
    RefundAccount := "", RefundRequestSource := "" }

/-- Collaborators for the refund notification: a decoder that reads the whole body as
the text of `req_info`, digests that show their input, and a decryption that fails
on padding. -/
def sampleNotifyDeps : NotifyDeps :=
  { xmlDecode := fun body => .ok { zeroNotifyResult with ReturnCode := "SUCCESS", ReqInfo := body }
    SignMd5 := fun s => "MD5(" ++ s ++ ")"
    ToLower := fun s => "low(" ++ s ++ ")"
    AES256ECBDecrypt := fun _ _ => .error CryptoStage.padding
    xmlUnmarshal := fun _ r => .ok r }

/-- The seventeen tag names the struct declares. -/
def declaredTags : List String :=
  ["return_code", "return_msg", "appid", "mch_id", "nonce_str", "req_info", "transaction_id",
   "out_trade_no", "refund_id", "out_refund_no", "total_fee", "settlement_refund_fee",
   "refund_status", "success_time", "refund_recv_accout", "refund_account",
   "refund_request_source"]

/-- The declared view of a record: each tag name with the field it names. -/
def declaredFields (r : refundNotifyResult) : List (String × FieldVal) :=
  [("return_code", .s r.ReturnCode),
   ("return_msg", .s r.ReturnMsg),
   ("appid", .s r.Appid),
   ("mch_id", .s r.MchId),
   ("nonce_str", .s r.NonceStr),
   ("req_info", .s r.ReqInfo),
   ("transaction_id", .s r.TransactionId),
   ("out_trade_no", .s r.OutTradeNo),
   ("refund_id", .s r.RefundId),
   ("out_refund_no", .s r.OutRefundNo),
   ("total_fee", .i r.TotalFee),
   ("settlement_refund_fee", .i r.SettlementRefundFee),
   ("refund_status", .s r.RefundStatus),
   ("success_time", .s r.SuccessTime),
   ("refund_recv_accout", .s r.RefundRecvAccout),
   ("refund_account", .s r.RefundAccount),
   ("refund_request_source", .s r.RefundRequestSource)]

/-! # Theorems -/


/-! ## Lemmas on maps -/

theorem mapGet_mapSet_same (m : Param) (k : String) (v : Value) :
    mapGet (mapSet m k v) k = some v := by
  induction m with
  | nil => simp [mapSet, mapGet]
  | cons e rest ih =>
    obtain ⟨k', v'⟩ := e
    by_cases h : k' = k
    · simp [mapSet, mapGet, h]
    · simp [mapSet, mapGet, h, ih]

theorem mapGet_mapSet_ne (m : Param) (k k' : String) (v : Value) (h : k ≠ k') :
    mapGet (mapSet m k v) k' = mapGet m k' := by
  induction m with
  | nil => simp [mapSet, mapGet, h]
  | cons e rest ih =>
    obtain ⟨k₀, v₀⟩ := e
    by_cases h₀ : k₀ = k
    · subst h₀
      simp [mapSet, mapGet, h]
    · by_cases h₁ : k₀ = k'
      · subst h₁
        simp [mapSet, mapGet, h₀]
      · simp [mapSet, mapGet, h₀, h₁, ih]

theorem mapGet_mapDelete_same (m : Param) (k : String) : mapGet (mapDelete m k) k = none := by
  induction m with
  | nil => simp [mapDelete, mapGet]
  | cons e rest ih =>
    obtain ⟨k₀, v₀⟩ := e
    by_cases h₀ : k₀ = k
    · simpa [mapDelete, h₀] using ih
    · simpa [mapDelete, h₀, mapGet] using ih

theorem mapGet_mapDelete_ne (m : Param) (k k' : String) (h : k ≠ k') :
    mapGet (mapDelete m k) k' = mapGet m k' := by
  induction m with
  | nil => simp [mapDelete, mapGet]
  | cons e rest ih =>
    obtain ⟨k₀, v₀⟩ := e
    by_cases h₀ : k₀ = k
    · subst h₀
      simpa [mapDelete, mapGet, h] using ih
    · by_cases h₁ : k₀ = k'
      · subst h₁
        simp [mapDelete, mapGet, h₀]
      · simpa [mapDelete, mapGet, h₀, h₁] using ih

theorem mapGet_ne_none_iff (m : Param) (k : String) : mapGet m k ≠ none ↔ k ∈ mapKeys m := by
  induction m with
  | nil => simp [mapGet, mapKeys]
  | cons e rest ih =>
    obtain ⟨k₀, v₀⟩ := e
    by_cases h₀ : k₀ = k
    · simp [mapGet, mapKeys, h₀]
    · have : ¬ k = k₀ := fun h => h₀ h.symm
      simpa [mapGet, mapKeys, h₀, this] using ih

/-! ## Lemmas on the byte-wise order -/

theorem bytesLE_total (a b : List Nat) : bytesLE a b = true ∨ bytesLE b a = true := by
  induction a generalizing b with
  | nil => simp [bytesLE]
  | cons x xs ih =>
    cases b with
    | nil => simp [bytesLE]
    | cons y ys =>
      simp only [bytesLE, Bool.or_eq_true, Bool.and_eq_true, decide_eq_true_eq]
      rcases Nat.lt_trichotomy x y with h | h | h
      · exact Or.inl (Or.inl h)
      · subst h
        rcases ih ys with h' | h'
        · exact Or.inl (Or.inr ⟨rfl, h'⟩)
        · exact Or.inr (Or.inr ⟨rfl, h'⟩)
      · exact Or.inr (Or.inl h)

theorem bytesLE_trans (a b c : List Nat) (hab : bytesLE a b = true) (hbc : bytesLE b c = true) :
    bytesLE a c = true := by
  induction a generalizing b c with
  | nil => simp [bytesLE]
  | cons x xs ih =>
    cases b with
    | nil => simp [bytesLE] at hab
    | cons y ys =>
      cases c with
      | nil => simp [bytesLE] at hbc
      | cons z zs =>
        simp only [bytesLE, Bool.or_eq_true, Bool.and_eq_true, decide_eq_true_eq] at hab hbc ⊢
        rcases hab with h | ⟨h, h'⟩
        · rcases hbc with g | ⟨g, _⟩
          · exact Or.inl (Nat.lt_trans h g)
          · exact Or.inl (g ▸ h)
        · subst h
          rcases hbc with g | ⟨g, g'⟩
          · exact Or.inl g
          · exact Or.inr ⟨g, ih ys zs h' g'⟩

theorem sortStrings_sorted (l : List String) : (sortStrings l).Sorted strLE :=
  @List.sorted_insertionSort String strLE _ ⟨fun _ _ => bytesLE_total _ _⟩
    ⟨fun _ _ _ hab hbc => bytesLE_trans _ _ _ hab hbc⟩ l

theorem sortStrings_perm (l : List String) : (sortStrings l).Perm l :=
  List.perm_insertionSort strLE l

theorem mem_sortStrings (l : List String) (k : String) : k ∈ sortStrings l ↔ k ∈ l :=
  (sortStrings_perm l).mem_iff

/-! ## Lemmas on the loops of `DoUnifiedOrder` -/

theorem mustLoop_congr (cp cp' : Param) (ks : List String) (params : Param) (names : List String)
    (h : ∀ k ∈ ks, k ≠ "sign" → mapGet cp' k = mapGet cp k) :
    mustLoop cp' ks params names = mustLoop cp ks params names := by
  induction ks generalizing params names with
  | nil => simp [mustLoop]
  | cons k ks ih =>
    have ih' := fun p n => ih p n (fun k' hk' => h k' (List.mem_cons_of_mem _ hk'))
    by_cases hk : k = "sign"
    · simp [mustLoop, hk, ih']
    · simp [mustLoop, hk, h k (List.mem_cons_self _ _) hk, ih']

theorem optionalLoop_congr (cp cp' : Param) (ks : List String) (params : Param)
    (names : List String) (h : ∀ k ∈ ks, mapGet cp' k = mapGet cp k) :
    optionalLoop cp' ks params names = optionalLoop cp ks params names := by
  induction ks generalizing params names with
  | nil => simp [optionalLoop]
  | cons k ks ih =>
    have ih' := fun p n => ih p n (fun k' hk' => h k' (List.mem_cons_of_mem _ hk'))
    simp [optionalLoop, h k (List.mem_cons_self _ _), ih']

theorem mustLoop_ok (cp : Param) (ks : List String) (params : Param) (names : List String)
    (h : ∀ k ∈ ks, k ≠ "sign" → mapGet cp k ≠ none) :
    ∃ r, mustLoop cp ks params names = .ok r := by
  induction ks generalizing params names with
  | nil => exact ⟨_, rfl⟩
  | cons k ks ih =>
    have ih' := fun p n => ih p n (fun k' hk' => h k' (List.mem_cons_of_mem _ hk'))
    by_cases hk : k = "sign"
    · simpa [mustLoop, hk] using ih' params names
    · have hp := h k (List.mem_cons_self _ _) hk
      cases hv : mapGet cp k with
      | none => exact absurd hv hp
      | some v => simpa [mustLoop, hk, hv] using ih' _ _

theorem mustLoop_spec (cp : Param) (ks : List String) (params : Param) (names : List String)
    (r : Param × List String) (h : mustLoop cp ks params names = .ok r) :
    r.2 = names ++ ks.filter (fun k => decide (k ≠ "sign")) ∧
      ∀ k, mapGet r.1 k = if k ∈ ks ∧ k ≠ "sign" then mapGet cp k else mapGet params k := by
  induction ks generalizing params names with
  | nil =>
    simp only [mustLoop, Except.ok.injEq] at h
    subst h
    simp
  | cons k ks ih =>
    by_cases hk : k = "sign"
    · simp only [mustLoop, hk, if_true] at h
      obtain ⟨h1, h2⟩ := ih params names h
      refine ⟨by simp [h1, hk], fun k' => ?_⟩
      rw [h2 k']
      by_cases hs : k' = "sign"
      · simp [hs]
      · simp [hs, hk]
    · cases hv : mapGet cp k with
      | none => simp [mustLoop, hk, hv] at h
      | some v =>
        simp only [mustLoop, hk, hv, if_false] at h
        obtain ⟨h1, h2⟩ := ih _ _ h
        refine ⟨by simp [h1, hk], fun k' => ?_⟩
        rw [h2 k']
        by_cases hm : k' ∈ ks ∧ k' ≠ "sign"
        · simp [hm.1, hm.2]
        · by_cases hkk : k = k'
          · subst hkk
            simp [hk, mapGet_mapSet_same, hv]
          · have hne : ¬ k' = k := fun e => hkk e.symm
            rw [if_neg hm, mapGet_mapSet_ne _ _ _ _ hkk]
            have : ¬ (k' ∈ k :: ks ∧ k' ≠ "sign") := by
              rintro ⟨hmem, hs⟩
              rcases List.mem_cons.mp hmem with e | e
              · exact hne e
              · exact hm ⟨e, hs⟩
            rw [if_neg this]

theorem optionalLoop_spec (cp : Param) (ks : List String) (params : Param) (names : List String) :
    (optionalLoop cp ks params names).2 = names ++ ks.filter (fun k => (mapGet cp k).isSome) ∧
      ∀ k, mapGet (optionalLoop cp ks params names).1 k =
        if k ∈ ks ∧ mapGet cp k ≠ none then mapGet cp k else mapGet params k := by
  induction ks generalizing params names with
  | nil => simp [optionalLoop]
  | cons k ks ih =>
    cases hv : mapGet cp k with
    | none =>
      simp only [optionalLoop, hv]
      obtain ⟨h1, h2⟩ := ih params names
      refine ⟨by simp [h1, hv], fun k' => ?_⟩
      rw [h2 k']
      by_cases hkk : k' = k
      · subst hkk
        simp [hv]
      · simp [hkk]
    | some v =>
      simp only [optionalLoop, hv]
      obtain ⟨h1, h2⟩ := ih (mapSet params k v) (names ++ [k])
      refine ⟨by simp [h1, hv], fun k' => ?_⟩
      rw [h2 k']
      by_cases hm : k' ∈ ks ∧ mapGet cp k' ≠ none
      · simp [hm.1, hm.2]
      · by_cases hkk : k = k'
        · subst hkk
          simp [mapGet_mapSet_same, hv]
        · have hne : ¬ k' = k := fun e => hkk e.symm
          rw [if_neg hm, mapGet_mapSet_ne _ _ _ _ hkk]
          have : ¬ (k' ∈ k :: ks ∧ mapGet cp k' ≠ none) := by
            rintro ⟨hmem, hs⟩
            rcases List.mem_cons.mp hmem with e | e
            · exact hne e
            · exact hm ⟨e, hs⟩
          rw [if_neg this]

theorem mem_referenceKeys (cp : Param) (k : String) :
    k ∈ referenceKeys cp ↔
      (k ∈ UnifiedOrderMustParam ∧ k ≠ "sign") ∨
        (k ∈ UnifiedOrderOptionalParam ∧ mapGet cp k ≠ none) := by
  simp [referenceKeys, List.mem_append, List.mem_filter, Option.isSome_iff_ne_none]

/-- What `unifiedOrderParams` returns when it returns: the names are the reference
keys, and the request bag holds the client's value under each of them and
nothing else. -/
theorem unifiedOrderParams_spec (cp : Param) (params : Param) (names : List String)
    (h : unifiedOrderParams cp = .ok (params, names)) :
    names = referenceKeys cp ∧
      ∀ k, mapGet params k = if k ∈ referenceKeys cp then mapGet cp k else none := by
  unfold unifiedOrderParams at h
  cases hm : mustLoop cp UnifiedOrderMustParam [] [] with
  | error e => simp [hm] at h
  | ok r =>
    obtain ⟨p₁, n₁⟩ := r
    simp only [hm, Except.ok.injEq] at h
    obtain ⟨m1, m2⟩ := mustLoop_spec cp _ _ _ _ hm
    obtain ⟨o1, o2⟩ := optionalLoop_spec cp UnifiedOrderOptionalParam p₁ n₁
    rw [h] at o1 o2
    simp only at o1 o2 m1 m2
    refine ⟨by simp [o1, m1, referenceKeys], fun k => ?_⟩
    rw [o2 k, m2 k]
    by_cases h1 : k ∈ UnifiedOrderOptionalParam ∧ mapGet cp k ≠ none
    · rw [if_pos h1, if_pos ((mem_referenceKeys cp k).mpr (Or.inr h1))]
    · rw [if_neg h1]
      by_cases h2 : k ∈ UnifiedOrderMustParam ∧ k ≠ "sign"
      · rw [if_pos h2, if_pos ((mem_referenceKeys cp k).mpr (Or.inl h2))]
      · rw [if_neg h2, if_neg]
        · rfl
        · intro hk
          rcases (mem_referenceKeys cp k).mp hk with e | e
          · exact h2 e
          · exact h1 e

theorem unifiedOrderParams_ok (cp : Param)
    (h : ∀ k ∈ UnifiedOrderMustParam, k ≠ "sign" → mapGet cp k ≠ none) :
    ∃ params names, unifiedOrderParams cp = .ok (params, names) := by
  obtain ⟨r, hr⟩ := mustLoop_ok cp UnifiedOrderMustParam [] [] h
  obtain ⟨p₁, n₁⟩ := r
  refine ⟨(optionalLoop cp UnifiedOrderOptionalParam p₁ n₁).1,
    (optionalLoop cp UnifiedOrderOptionalParam p₁ n₁).2, ?_⟩
  simp [unifiedOrderParams, hr]

/-! ## Lemmas on the join loop -/

theorem joinLoop_succ (params : Param) (ns : List String) (i : Nat) (acc : String) :
    joinLoop params ns (i + 1) acc
      = String.intercalate.go acc "&" (ns.map (renderPair params)) := by
  induction ns generalizing i acc with
  | nil => simp [joinLoop, String.intercalate.go]
  | cons n ns ih =>
    simp only [joinLoop, List.map_cons, String.intercalate.go]
    rw [ih]
    simp [renderPair, String.append_assoc]

theorem joinLoop_zero (params : Param) (ns : List String) :
    joinLoop params ns 0 "" = "&".intercalate (ns.map (renderPair params)) := by
  cases ns with
  | nil => simp [joinLoop, String.intercalate]
  | cons n ns =>
    simp only [joinLoop, List.map_cons, String.intercalate]
    rw [joinLoop_succ]
    simp [renderPair]

/-! ## The canonical string of `DoUnifiedOrder` -/

theorem toBeSignStr_eq_reference (cp params : Param) (names : List String) (appSecret : String)
    (h : unifiedOrderParams cp = .ok (params, names)) :
    unifiedOrderToBeSignStr params names appSecret = referenceCanonical cp appSecret := by
  obtain ⟨hn, hg⟩ := unifiedOrderParams_spec cp params names h
  subst hn
  have hmap : (sortStrings (referenceKeys cp)).map (renderPair params)
      = (sortStrings (referenceKeys cp)).map (renderPair cp) := by
    apply List.map_congr_left
    intro k hk
    have hk' : k ∈ referenceKeys cp := (mem_sortStrings _ _).mp hk
    simp [renderPair, hg k, hk']
  simp [unifiedOrderToBeSignStr, referenceCanonical, joinLoop_zero, hmap, String.append_assoc]

theorem unifiedOrderParams_sign_irrelevant (cp : Param) (v : Value) :
    unifiedOrderParams (mapSet cp "sign" v) = unifiedOrderParams cp := by
  have hm : ∀ params names, mustLoop (mapSet cp "sign" v) UnifiedOrderMustParam params names
      = mustLoop cp UnifiedOrderMustParam params names := fun params names =>
    mustLoop_congr cp _ _ params names
      (fun k _ hk => mapGet_mapSet_ne cp "sign" k v (fun e => hk e.symm))
  have ho : ∀ params names, optionalLoop (mapSet cp "sign" v) UnifiedOrderOptionalParam params names
      = optionalLoop cp UnifiedOrderOptionalParam params names := fun params names =>
    optionalLoop_congr cp _ _ params names (fun k hk =>
      mapGet_mapSet_ne cp "sign" k v (by
        intro e
        subst e
        simp [UnifiedOrderOptionalParam] at hk))
  simp [unifiedOrderParams, hm, ho]

theorem sign_not_mem_referenceKeys (cp : Param) : "sign" ∉ referenceKeys cp := by
  intro h
  rcases (mem_referenceKeys cp "sign").mp h with ⟨_, e⟩ | ⟨e, _⟩
  · exact e rfl
  · simp [UnifiedOrderOptionalParam] at e

theorem DoUnifiedOrder_digest_input (d : ClientDeps) (client : myWeClient) (cp params : Param)
    (names : List String) (hp : client.params = some cp)
    (h : unifiedOrderParams cp = .ok (params, names)) (alg input : String)
    (he : Event.digest alg input ∈ (DoUnifiedOrder d client).trace) :
    input = unifiedOrderToBeSignStr params names client.appSecret := by
  unfold DoUnifiedOrder at he
  cases hb : checkBaseParam client with
  | some e => simp [hb] at he
  | none =>
    simp only [hb, hp, h] at he
    cases hs : unifiedOrderSign d params (unifiedOrderToBeSignStr params names client.appSecret) with
    | panic => simp [hs] at he
    | err e => simp [hs] at he
    | ok r =>
      obtain ⟨alg', params', signValue⟩ := r
      simp only [hs] at he
      cases hpost : d.postUnifiedOrder d.UnifiedOrderApiUrl "application/xml;charset=utf-8" params' with
      | error e =>
        simp [hpost] at he
        exact he.2
      | ok result =>
        simp only [hpost] at he
        split at he <;> simp at he <;> exact he.2

/-- C2: when every required parameter other than `sign` is present, the string
`DoUnifiedOrder` builds for the digest (and every string it hands to a digest) is the
reference canonical string: the required keys other than `sign` and the optional keys
present, in ascending byte-wise order, rendered `key=value`, joined with `&`, followed
by `&key=` and the secret. The sorted key list is ordered and a permutation of those
keys, `sign` is not among them, and a `sign` entry supplied by the caller changes
nothing of what is collected. -/
theorem DoUnifiedOrder_canonical_eq_reference (d : ClientDeps) (client : myWeClient) (cp : Param)
    (hp : client.params = some cp)
    (hmust : ∀ k ∈ UnifiedOrderMustParam, k ≠ "sign" → mapGet cp k ≠ none) :
    (∃ params names, unifiedOrderParams cp = .ok (params, names) ∧
      unifiedOrderToBeSignStr params names client.appSecret
        = referenceCanonical cp client.appSecret) ∧
    (∀ alg input, Event.digest alg input ∈ (DoUnifiedOrder d client).trace →
      input = referenceCanonical cp client.appSecret) ∧
    (sortStrings (referenceKeys cp)).Sorted strLE ∧
    (sortStrings (referenceKeys cp)).Perm (referenceKeys cp) ∧
    "sign" ∉ referenceKeys cp ∧
    ∀ v, unifiedOrderParams (mapSet cp "sign" v) = unifiedOrderParams cp := by
  obtain ⟨params, names, h⟩ := unifiedOrderParams_ok cp hmust
  have heq := toBeSignStr_eq_reference cp params names client.appSecret h
  refine ⟨⟨params, names, h, heq⟩, ?_, sortStrings_sorted _, sortStrings_perm _,
    sign_not_mem_referenceKeys cp, unifiedOrderParams_sign_irrelevant cp⟩
  intro alg input he
  rw [← heq]
  exact DoUnifiedOrder_digest_input d client cp params names hp h alg input he

/-- C2, at the sample client: the digested string is
`appid=wx1&body=b&...&trade_type=JSAPI&key=s`. -/
theorem DoUnifiedOrder_canonical_eq_reference_witness :
    (sampleClient sampleOrderParams).params = some sampleOrderParams ∧
    (∀ k ∈ UnifiedOrderMustParam, k ≠ "sign" → mapGet sampleOrderParams k ≠ none) ∧
    ((∃ params names, unifiedOrderParams sampleOrderParams = .ok (params, names) ∧
      unifiedOrderToBeSignStr params names (sampleClient sampleOrderParams).appSecret
        = referenceCanonical sampleOrderParams (sampleClient sampleOrderParams).appSecret) ∧
    (∀ alg input,
      Event.digest alg input ∈
        (DoUnifiedOrder sampleClientDeps (sampleClient sampleOrderParams)).trace →
      input = referenceCanonical sampleOrderParams (sampleClient sampleOrderParams).appSecret) ∧
    (sortStrings (referenceKeys sampleOrderParams)).Sorted strLE ∧
    (sortStrings (referenceKeys sampleOrderParams)).Perm (referenceKeys sampleOrderParams) ∧
    "sign" ∉ referenceKeys sampleOrderParams ∧
    ∀ v, unifiedOrderParams (mapSet sampleOrderParams "sign" v)
      = unifiedOrderParams sampleOrderParams) :=
  ⟨rfl, by decide,
    DoUnifiedOrder_canonical_eq_reference sampleClientDeps (sampleClient sampleOrderParams)
      sampleOrderParams rfl (by decide)⟩

/-- C1, evaluated where `sign_type` is absent: the string digested has no
`sign_type` pair while the bag sent holds `sign_type=MD5`, so the canonical string of
the non-`sign` fields of the bag sent is another string than the one digested. On the
branch for `HMAC-SHA256` the two strings are the same. -/
theorem DoUnifiedOrder_default_sign_type_unsigned :
    (DoUnifiedOrder sampleClientDeps (sampleClient sampleOrderParams)).trace =
      [Event.digest "MD5"
        "appid=wx1&body=b&mch_id=m1&nonce_str=n1&notify_url=u&out_trade_no=T1&spbill_create_ip=ip&total_fee=1&trade_type=JSAPI&key=s",
       Event.post "https://api.mch.weixin.qq.com/pay/unifiedorder" "application/xml;charset=utf-8"
        (sampleOrderParams ++
          [("sign_type", .str "MD5"),
           ("sign", .str "UP(md5(appid=wx1&body=b&mch_id=m1&nonce_str=n1&notify_url=u&out_trade_no=T1&spbill_create_ip=ip&total_fee=1&trade_type=JSAPI&key=s))")])] ∧
    canonicalString
        (sampleOrderParams ++
          [("sign_type", .str "MD5"),
           ("sign", .str "UP(md5(appid=wx1&body=b&mch_id=m1&nonce_str=n1&notify_url=u&out_trade_no=T1&spbill_create_ip=ip&total_fee=1&trade_type=JSAPI&key=s))")])
        "s" =
      "appid=wx1&body=b&mch_id=m1&nonce_str=n1&notify_url=u&out_trade_no=T1&sign_type=MD5&spbill_create_ip=ip&total_fee=1&trade_type=JSAPI&key=s" ∧
    "appid=wx1&body=b&mch_id=m1&nonce_str=n1&notify_url=u&out_trade_no=T1&sign_type=MD5&spbill_create_ip=ip&total_fee=1&trade_type=JSAPI&key=s"
      ≠ "appid=wx1&body=b&mch_id=m1&nonce_str=n1&notify_url=u&out_trade_no=T1&spbill_create_ip=ip&total_fee=1&trade_type=JSAPI&key=s" ∧
    (DoUnifiedOrder sampleClientDeps (sampleClient sampleOrderParamsHmac)).trace =
      [Event.digest "HMAC-SHA256"
        "appid=wx1&body=b&mch_id=m1&nonce_str=n1&notify_url=u&out_trade_no=T1&sign_type=HMAC-SHA256&spbill_create_ip=ip&total_fee=1&trade_type=JSAPI&key=s",
       Event.post "https://api.mch.weixin.qq.com/pay/unifiedorder" "application/xml;charset=utf-8"
        (sampleOrderParamsHmac ++
          [("sign", .str "UP(hmac(appid=wx1&body=b&mch_id=m1&nonce_str=n1&notify_url=u&out_trade_no=T1&sign_type=HMAC-SHA256&spbill_create_ip=ip&total_fee=1&trade_type=JSAPI&key=s))")])] ∧
    canonicalString
        (sampleOrderParamsHmac ++
          [("sign", .str "UP(hmac(appid=wx1&body=b&mch_id=m1&nonce_str=n1&notify_url=u&out_trade_no=T1&sign_type=HMAC-SHA256&spbill_create_ip=ip&total_fee=1&trade_type=JSAPI&key=s))")])
        "s" =
      "appid=wx1&body=b&mch_id=m1&nonce_str=n1&notify_url=u&out_trade_no=T1&sign_type=HMAC-SHA256&spbill_create_ip=ip&total_fee=1&trade_type=JSAPI&key=s" := by
  decide

/-! ## Empty values -/

/-- C3 as stated fails: with the optional `attach` set to the empty string, the
digested string holds the pair `attach=`, and differs from the canonical string in
which keys with an empty value are dropped. -/
theorem DoUnifiedOrder_keeps_empty_value :
    (DoUnifiedOrder sampleClientDeps (sampleClient sampleOrderParamsEmptyAttach)).trace.head? =
      some (Event.digest "MD5"
        "appid=wx1&attach=&body=b&mch_id=m1&nonce_str=n1&notify_url=u&out_trade_no=T1&spbill_create_ip=ip&total_fee=1&trade_type=JSAPI&key=s") ∧
    referenceCanonicalNonEmpty sampleOrderParamsEmptyAttach "s" =
      "appid=wx1&body=b&mch_id=m1&nonce_str=n1&notify_url=u&out_trade_no=T1&spbill_create_ip=ip&total_fee=1&trade_type=JSAPI&key=s" := by
  decide

/-- C3 amended: no key is dropped for having an empty value. When the required
parameters are present, every required key other than `sign` and every optional key
present contributes its pair `key=value` to the digested string, and the pair of a
key whose value is the empty string is `key=`. -/
theorem DoUnifiedOrder_every_key_contributes (cp : Param) (appSecret : String) (k : String)
    (hmust : ∀ k ∈ UnifiedOrderMustParam, k ≠ "sign" → mapGet cp k ≠ none)
    (hk : k ∈ referenceKeys cp) :
    ∃ params names before after,
      unifiedOrderParams cp = .ok (params, names) ∧
      unifiedOrderToBeSignStr params names appSecret =
        "&".intercalate (before ++ renderPair cp k :: after) ++ "&key=" ++ appSecret ∧
      (mapGet cp k = some (.str "") → renderPair cp k = k ++ "=") := by
  obtain ⟨params, names, h⟩ := unifiedOrderParams_ok cp hmust
  have hmem : k ∈ sortStrings (referenceKeys cp) := (mem_sortStrings _ _).mpr hk
  obtain ⟨s, t, hst⟩ := List.append_of_mem hmem
  refine ⟨params, names, s.map (renderPair cp), t.map (renderPair cp), h, ?_, ?_⟩
  · rw [toBeSignStr_eq_reference cp params names appSecret h]
    simp [referenceCanonical, hst]
  · intro hv
    simp [renderPair, hv, fmtV]

/-- C3 amended, at the sample parameter set with `attach` empty: `attach=` is one of
the pairs. -/
theorem DoUnifiedOrder_every_key_contributes_witness :
    (∀ k ∈ UnifiedOrderMustParam, k ≠ "sign" → mapGet sampleOrderParamsEmptyAttach k ≠ none) ∧
    "attach" ∈ referenceKeys sampleOrderParamsEmptyAttach ∧
    ∃ params names before after,
      unifiedOrderParams sampleOrderParamsEmptyAttach = .ok (params, names) ∧
      unifiedOrderToBeSignStr params names "s" =
        "&".intercalate (before ++ renderPair sampleOrderParamsEmptyAttach "attach" :: after)
          ++ "&key=" ++ "s" ∧
      (mapGet sampleOrderParamsEmptyAttach "attach" = some (.str "") →
        renderPair sampleOrderParamsEmptyAttach "attach" = "attach" ++ "=") :=
  ⟨by decide, by decide,
    DoUnifiedOrder_every_key_contributes sampleOrderParamsEmptyAttach "s" "attach"
      (by decide) (by decide)⟩

/-! ## Digest selection -/

theorem unifiedOrderParams_sign_type (cp params : Param) (names : List String)
    (h : unifiedOrderParams cp = .ok (params, names)) :
    mapGet params "sign_type" = mapGet cp "sign_type" := by
  obtain ⟨_, hg⟩ := unifiedOrderParams_spec cp params names h
  rw [hg]
  by_cases hm : "sign_type" ∈ referenceKeys cp
  · rw [if_pos hm]
  · rw [if_neg hm]
    by_cases hv : mapGet cp "sign_type" = none
    · exact hv.symm
    · exact absurd ((mem_referenceKeys cp _).mpr
        (Or.inr ⟨by simp [UnifiedOrderOptionalParam], hv⟩)) hm

/-- The run of `DoUnifiedOrder` up to the transport, when the checks pass and
`sign_type` is absent or a string. -/
theorem DoUnifiedOrder_trace (d : ClientDeps) (client : myWeClient) (cp params : Param)
    (names : List String) (hb : checkBaseParam client = none) (hp : client.params = some cp)
    (h : unifiedOrderParams cp = .ok (params, names))
    (hs : ∀ v, mapGet cp "sign_type" = some v → ∃ s, v = .str s) :
    (DoUnifiedOrder d client).trace =
      if mapGet cp "sign_type" = some (.str "HMAC-SHA256") then
        [Event.digest "HMAC-SHA256" (unifiedOrderToBeSignStr params names client.appSecret),
         Event.post d.UnifiedOrderApiUrl "application/xml;charset=utf-8"
          (mapSet params "sign" (.str (d.ToUpper (d.signHMACSHA256
            (unifiedOrderToBeSignStr params names client.appSecret)))))]
      else
        [Event.digest "MD5" (unifiedOrderToBeSignStr params names client.appSecret),
         Event.post d.UnifiedOrderApiUrl "application/xml;charset=utf-8"
          (mapSet (mapSet params "sign_type" (.str "MD5")) "sign"
            (.str (d.ToUpper (d.signMd5
              (unifiedOrderToBeSignStr params names client.appSecret)))))] := by
  have hst := unifiedOrderParams_sign_type cp params names h
  unfold DoUnifiedOrder
  simp only [hb, hp, h]
  cases hv : mapGet cp "sign_type" with
  | none =>
    simp only [unifiedOrderSign, hst, hv]
    cases d.postUnifiedOrder d.UnifiedOrderApiUrl "application/xml;charset=utf-8" _ with
    | error e => simp
    | ok result => simp only []; split <;> simp
  | some v =>
    obtain ⟨s, rfl⟩ := hs v hv
    by_cases hh : s = "HMAC-SHA256"
    · subst hh
      simp only [unifiedOrderSign, hst, hv, if_true]
      cases d.postUnifiedOrder d.UnifiedOrderApiUrl "application/xml;charset=utf-8" _ with
      | error e => simp
      | ok result => simp only []; split <;> simp
    · simp only [unifiedOrderSign, hst, hv, hh, if_false]
      cases d.postUnifiedOrder d.UnifiedOrderApiUrl "application/xml;charset=utf-8" _ with
      | error e => simp [hh]
      | ok result => simp only []; split <;> simp [hh]

/-- C4: when the checks pass and `sign_type` is absent or a string, `DoUnifiedOrder`
digests the canonical string once and sends a bag whose `sign` is the upper-cased
HMAC-SHA256 digest of that string if `sign_type` is `HMAC-SHA256`, and the upper-cased
MD5 digest of that string in every other case. -/
theorem DoUnifiedOrder_digest_selection (d : ClientDeps) (client : myWeClient) (cp : Param)
    (hb : checkBaseParam client = none) (hp : client.params = some cp)
    (hmust : ∀ k ∈ UnifiedOrderMustParam, k ≠ "sign" → mapGet cp k ≠ none)
    (hs : ∀ v, mapGet cp "sign_type" = some v → ∃ s, v = .str s) :
    ∃ params names bag,
      unifiedOrderParams cp = .ok (params, names) ∧
      (DoUnifiedOrder d client).trace =
        [Event.digest (if mapGet cp "sign_type" = some (.str "HMAC-SHA256") then "HMAC-SHA256"
            else "MD5") (unifiedOrderToBeSignStr params names client.appSecret),
         Event.post d.UnifiedOrderApiUrl "application/xml;charset=utf-8" bag] ∧
      mapGet bag "sign" = some (.str
        (if mapGet cp "sign_type" = some (.str "HMAC-SHA256") then
          d.ToUpper (d.signHMACSHA256 (unifiedOrderToBeSignStr params names client.appSecret))
        else
          d.ToUpper (d.signMd5 (unifiedOrderToBeSignStr params names client.appSecret)))) := by
  obtain ⟨params, names, h⟩ := unifiedOrderParams_ok cp hmust
  have ht := DoUnifiedOrder_trace d client cp params names hb hp h hs
  by_cases hh : mapGet cp "sign_type" = some (.str "HMAC-SHA256")
  · rw [if_pos hh] at ht
    exact ⟨params, names, _, h, by rw [ht, if_pos hh], by rw [if_pos hh, mapGet_mapSet_same]⟩
  · rw [if_neg hh] at ht
    exact ⟨params, names, _, h, by rw [ht, if_neg hh], by rw [if_neg hh, mapGet_mapSet_same]⟩

theorem sampleOrderParamsHmac_sign_type (v : Value)
    (hv : mapGet sampleOrderParamsHmac "sign_type" = some v) : ∃ s, v = .str s := by
  rw [show mapGet sampleOrderParamsHmac "sign_type" = some (.str "HMAC-SHA256") by decide] at hv
  exact ⟨_, (Option.some.inj hv).symm⟩

/-- C4, at the sample client with `sign_type` set to `HMAC-SHA256`. -/
theorem DoUnifiedOrder_digest_selection_witness :
    checkBaseParam (sampleClient sampleOrderParamsHmac) = none ∧
    (sampleClient sampleOrderParamsHmac).params = some sampleOrderParamsHmac ∧
    (∀ k ∈ UnifiedOrderMustParam, k ≠ "sign" → mapGet sampleOrderParamsHmac k ≠ none) ∧
    (∀ v, mapGet sampleOrderParamsHmac "sign_type" = some v → ∃ s, v = .str s) ∧
    ∃ params names bag,
      unifiedOrderParams sampleOrderParamsHmac = .ok (params, names) ∧
      (DoUnifiedOrder sampleClientDeps (sampleClient sampleOrderParamsHmac)).trace =
        [Event.digest
          (if mapGet sampleOrderParamsHmac "sign_type" = some (.str "HMAC-SHA256") then
            "HMAC-SHA256" else "MD5")
          (unifiedOrderToBeSignStr params names (sampleClient sampleOrderParamsHmac).appSecret),
         Event.post sampleClientDeps.UnifiedOrderApiUrl "application/xml;charset=utf-8" bag] ∧
      mapGet bag "sign" = some (.str
        (if mapGet sampleOrderParamsHmac "sign_type" = some (.str "HMAC-SHA256") then
          sampleClientDeps.ToUpper (sampleClientDeps.signHMACSHA256
            (unifiedOrderToBeSignStr params names (sampleClient sampleOrderParamsHmac).appSecret))
        else
          sampleClientDeps.ToUpper (sampleClientDeps.signMd5
            (unifiedOrderToBeSignStr params names
              (sampleClient sampleOrderParamsHmac).appSecret)))) :=
  ⟨by decide, rfl, by decide, sampleOrderParamsHmac_sign_type,
    DoUnifiedOrder_digest_selection sampleClientDeps (sampleClient sampleOrderParamsHmac)
      sampleOrderParamsHmac (by decide) rfl (by decide) sampleOrderParamsHmac_sign_type⟩

/-! ## Keys outside the lists of the unified order -/

/-- C9 as stated fails: with the key `openid`, which is in neither list, the client
returns no validation error; the order is signed, sent and answered. -/
theorem DoUnifiedOrder_accepts_unlisted_key :
    "openid" ∉ UnifiedOrderMustParam ∧ "openid" ∉ UnifiedOrderOptionalParam ∧
    mapGet sampleOrderParamsOpenid "openid" = some (.str "o1") ∧
    DoUnifiedOrder sampleClientDeps (sampleClient sampleOrderParamsOpenid) =
      ⟨[Event.digest "MD5"
          "appid=wx1&body=b&mch_id=m1&nonce_str=n1&notify_url=u&out_trade_no=T1&spbill_create_ip=ip&total_fee=1&trade_type=JSAPI&key=s",
        Event.post "https://api.mch.weixin.qq.com/pay/unifiedorder"
          "application/xml;charset=utf-8"
          (sampleOrderParams ++
            [("sign_type", .str "MD5"),
             ("sign", .str "UP(md5(appid=wx1&body=b&mch_id=m1&nonce_str=n1&notify_url=u&out_trade_no=T1&spbill_create_ip=ip&total_fee=1&trade_type=JSAPI&key=s))")])],
       .ok ⟨"UP(md5(appid=wx1&body=b&mch_id=m1&nonce_str=n1&notify_url=u&out_trade_no=T1&spbill_create_ip=ip&total_fee=1&trade_type=JSAPI&key=s))", []⟩⟩ := by
  decide

/-- C9 amended: a key that is in neither `UnifiedOrderMustParam` nor
`UnifiedOrderOptionalParam` is ignored. Storing it in the client parameter set, with
any value, leaves the whole run of `DoUnifiedOrder` unchanged: the same outcome, the
same string digested and the same bag sent, so the key causes no error and is neither
signed nor sent. -/
theorem DoUnifiedOrder_ignores_unlisted_key (d : ClientDeps) (client : myWeClient) (cp : Param)
    (k : String) (v : Value) (hp : client.params = some cp)
    (hm : k ∉ UnifiedOrderMustParam) (ho : k ∉ UnifiedOrderOptionalParam) :
    DoUnifiedOrder d { client with params := some (mapSet cp k v) } = DoUnifiedOrder d client := by
  have h1 : ∀ params names, mustLoop (mapSet cp k v) UnifiedOrderMustParam params names
      = mustLoop cp UnifiedOrderMustParam params names := fun params names =>
    mustLoop_congr cp _ _ params names (fun k' hk' _ =>
      mapGet_mapSet_ne cp k k' v (fun e => hm (e ▸ hk')))
  have h2 : ∀ params names, optionalLoop (mapSet cp k v) UnifiedOrderOptionalParam params names
      = optionalLoop cp UnifiedOrderOptionalParam params names := fun params names =>
    optionalLoop_congr cp _ _ params names (fun k' hk' =>
      mapGet_mapSet_ne cp k k' v (fun e => ho (e ▸ hk')))
  have h3 : unifiedOrderParams (mapSet cp k v) = unifiedOrderParams cp := by
    simp [unifiedOrderParams, h1, h2]
  simp [DoUnifiedOrder, checkBaseParam, hp, h3]

/-- C9 amended, at the sample client and the key `openid`. -/
theorem DoUnifiedOrder_ignores_unlisted_key_witness :
    (sampleClient sampleOrderParams).params = some sampleOrderParams ∧
    "openid" ∉ UnifiedOrderMustParam ∧ "openid" ∉ UnifiedOrderOptionalParam ∧
    DoUnifiedOrder sampleClientDeps
        { sampleClient sampleOrderParams with
          params := some (mapSet sampleOrderParams "openid" (.str "o1")) }
      = DoUnifiedOrder sampleClientDeps (sampleClient sampleOrderParams) :=
  ⟨rfl, by decide, by decide,
    DoUnifiedOrder_ignores_unlisted_key sampleClientDeps (sampleClient sampleOrderParams)
      sampleOrderParams "openid" (.str "o1") rfl (by decide) (by decide)⟩

/-! ## Lemmas on the loops of `RefundQuery` -/

theorem string_append_left_cancel {a b c : String} (h : a ++ b = a ++ c) : b = c := by
  have := congrArg String.data h
  simp only [String.data_append, List.append_cancel_left_eq] at this
  exact String.ext this

theorem mapGet_withIdentity (m : myPayer) (bag : Param) (k : String) :
    mapGet (withIdentity m bag) k =
      if k = "mch_id" then some (.str m.mchId)
      else if k = "appid" then some (.str m.appId)
      else mapGet bag k := by
  unfold withIdentity ParamAdd
  by_cases h1 : k = "mch_id"
  · subst h1
    simp [mapGet_mapSet_same]
  · have h1' : "mch_id" ≠ k := fun e => h1 e.symm
    rw [if_neg h1, mapGet_mapSet_ne _ _ _ _ h1']
    by_cases h2 : k = "appid"
    · subst h2
      simp [mapGet_mapSet_same]
    · have h2' : "appid" ≠ k := fun e => h2 e.symm
      rw [if_neg h2, mapGet_mapSet_ne _ _ _ _ h2']

theorem countOne_eq (param : Param) (ks : List String) (count : Nat) :
    countOne param ks count = count + (ks.filter (fun k => (mapGet param k).isSome)).length := by
  induction ks generalizing count with
  | nil => simp [countOne]
  | cons k ks ih =>
    cases hv : mapGet param k with
    | none => simp [countOne, ParamGet, hv, ih]
    | some v =>
      simp [countOne, ParamGet, hv, ih]
      omega

theorem countOne_withIdentity (m : myPayer) (bag : Param) :
    countOne (withIdentity m bag) refundQueryOneParam 0 = oneOfPresent bag := by
  rw [countOne_eq, Nat.zero_add]
  unfold oneOfPresent
  congr 1
  apply List.filter_congr
  intro k hk
  have h1 : k ≠ "mch_id" := by
    rintro rfl
    simp [refundQueryOneParam] at hk
  have h2 : k ≠ "appid" := by
    rintro rfl
    simp [refundQueryOneParam] at hk
  simp [mapGet_withIdentity, h1, h2]

theorem checkMust_withIdentity (m : myPayer) (bag : Param) :
    checkMust (withIdentity m bag) refundQueryMustParam =
      if mapGet bag "nonce_str" = none then some (Err.new "need nonce_str") else none := by
  cases hv : mapGet bag "nonce_str" with
  | none => simp [checkMust, refundQueryMustParam, ParamGet, mapGet_withIdentity, hv]
  | some v => simp [checkMust, refundQueryMustParam, ParamGet, mapGet_withIdentity, hv]

theorem errNeedOneOf_ne_need (k : String) (hk : k ∈ refundQueryMustParam) :
    Err.new ("need " ++ k) ≠ errNeedOneOf ∧ Err.new ("need " ++ k) ≠ errMoreThanOne := by
  simp only [refundQueryMustParam, List.mem_cons, List.mem_singleton, List.not_mem_nil,
    or_false] at hk
  rcases hk with rfl | rfl | rfl | rfl <;> decide

theorem no_need_ne (k : String) :
    Err.new ("no need " ++ k) ≠ errNeedOneOf ∧ Err.new ("no need " ++ k) ≠ errMoreThanOne ∧
      Err.new ("no need " ++ k) ≠ Err.new "need nonce_str" := by
  refine ⟨?_, ?_, ?_⟩ <;>
  · intro h
    have := congrArg String.data (Err.new.inj h)
    simp [errNeedOneOf, errMoreThanOne] at this

theorem mem_refundQueryAllowed (k : String) :
    k ∈ refundQueryAllowed ↔
      ¬ ((!HaveInArray refundQueryMustParam k && !HaveInArray refundQueryOptionalParam k
          && !HaveInArray refundQueryOneParam k) = true) := by
  simp only [refundQueryAllowed, HaveInArray, List.mem_append, Bool.and_eq_true,
    Bool.not_eq_true', decide_eq_false_iff_not]
  tauto

theorem rangeLoop_congr (p p' : Param) (h : ∀ k, mapGet p' k = mapGet p k) (visit : List String)
    (signType : String) : rangeLoop p' visit signType = rangeLoop p visit signType := by
  induction visit generalizing signType with
  | nil => simp [rangeLoop]
  | cons k ks ih => simp only [rangeLoop, h, ih]

theorem rangeLoop_allowed (param : Param) (visit : List String) (signType : String)
    (hs : ∀ v, mapGet param "sign_type" = some v → ∃ s, v = .str s)
    (hp : ∀ k ∈ visit, mapGet param k ≠ none)
    (ha : ∀ k ∈ visit, k ∈ refundQueryAllowed) :
    rangeLoop param visit signType =
      .ok (if "sign_type" ∈ visit then GetString param "sign_type" else signType) := by
  induction visit generalizing signType with
  | nil => simp [rangeLoop]
  | cons k ks ih =>
    have ih' := fun st => ih st (fun k' hk' => hp k' (List.mem_cons_of_mem _ hk'))
      (fun k' hk' => ha k' (List.mem_cons_of_mem _ hk'))
    have hk := (mem_refundQueryAllowed k).mp (ha k (List.mem_cons_self _ _))
    by_cases hst : k = "sign_type"
    · subst hst
      cases hv : mapGet param "sign_type" with
      | none => exact absurd hv (hp _ (List.mem_cons_self _ _))
      | some v =>
        obtain ⟨s, rfl⟩ := hs v hv
        simp only [rangeLoop, hv, if_true, if_neg hk, ih']
        by_cases hm : "sign_type" ∈ ks <;> simp [hm, GetString, hv]
    · have hst' : ¬ "sign_type" = k := fun e => hst e.symm
      simp only [rangeLoop, if_neg hst, if_neg hk, ih']
      simp [hst']

theorem rangeLoop_outside (param : Param) (visit : List String) (signType : String)
    (hs : ∀ v, mapGet param "sign_type" = some v → ∃ s, v = .str s)
    (hp : ∀ k ∈ visit, mapGet param k ≠ none)
    (hex : ∃ k ∈ visit, k ∉ refundQueryAllowed) :
    ∃ k ∈ visit, k ∉ refundQueryAllowed ∧
      rangeLoop param visit signType = .err (Err.new ("no need " ++ k)) := by
  induction visit generalizing signType with
  | nil =>
    obtain ⟨k, hk, _⟩ := hex
    simp at hk
  | cons k ks ih =>
    have hassigned : ∃ st,
        (if k = "sign_type" then
          match mapGet param k with
          | some (.str s) => some s
          | _ => none
        else some signType) = some st := by
      by_cases hst : k = "sign_type"
      · subst hst
        cases hv : mapGet param "sign_type" with
        | none => exact absurd hv (hp _ (List.mem_cons_self _ _))
        | some v =>
          obtain ⟨s, rfl⟩ := hs v hv
          exact ⟨s, by simp⟩
      · exact ⟨signType, by simp [hst]⟩
    obtain ⟨st, hst⟩ := hassigned
    by_cases hk : k ∈ refundQueryAllowed
    · have hex' : ∃ k' ∈ ks, k' ∉ refundQueryAllowed := by
        obtain ⟨k', hk', hout⟩ := hex
        rcases List.mem_cons.mp hk' with e | e
        · exact absurd (e ▸ hk) hout
        · exact ⟨k', e, hout⟩
      obtain ⟨k', hk', hout, hr⟩ :=
        ih st (fun k' hk' => hp k' (List.mem_cons_of_mem _ hk')) hex'
      refine ⟨k', List.mem_cons_of_mem _ hk', hout, ?_⟩
      simp only [rangeLoop, hst, if_neg ((mem_refundQueryAllowed k).mp hk), hr]
    · refine ⟨k, List.mem_cons_self _ _, hk, ?_⟩
      have hk' := not_not.mp (fun h => hk ((mem_refundQueryAllowed k).mpr h))
      simp only [rangeLoop, hst, if_pos hk']

/-- The validation of `RefundQuery` on an initialised payer, rule by rule, in terms of
the caller's bag. -/
theorem refundQueryValidate_eq (d : PayDeps) (m : myPayer) (bag : Param) (visit : List String)
    (hpay : d.checkForPay m = none) :
    refundQueryValidate d m (some bag) visit =
      if oneOfPresent bag = 0 then .err errNeedOneOf
      else if oneOfPresent bag > 1 then .err errMoreThanOne
      else if mapGet bag "nonce_str" = none then .err (Err.new "need nonce_str")
      else
        match rangeLoop (withIdentity m bag) visit d.SignTypeMD5 with
        | .panic => .panic
        | .err e => .err e
        | .ok signType => .ok (withIdentity m bag, signType) := by
  simp only [refundQueryValidate, hpay, countOne_withIdentity, checkMust_withIdentity,
    errNeedOneOf, errMoreThanOne]
  by_cases h0 : oneOfPresent bag = 0
  · simp [h0]
  · by_cases h1 : oneOfPresent bag > 1
    · simp [h0, h1]
    · by_cases hn : mapGet bag "nonce_str" = none
      · simp [h0, h1, hn]
      · simp [h0, h1, hn]

theorem RefundQuery_of_validate_err (d : PayDeps) (m : myPayer) (param : Option Param)
    (visit : List String) (e : Err) (h : refundQueryValidate d m param visit = .err e) :
    RefundQuery d m param visit = ⟨[], .err e⟩ := by
  simp [RefundQuery, h]

theorem RefundQuery_of_validate_ok (d : PayDeps) (m : myPayer) (param : Option Param)
    (visit : List String) (bag : Param) (signType : String)
    (h : refundQueryValidate d m param visit = .ok (bag, signType)) :
    RefundQuery d m param visit = refundQuerySend d bag signType := by
  simp [RefundQuery, h]

theorem refundQuerySend_head (d : PayDeps) (bag : Param) (signType : String) :
    (refundQuerySend d bag signType).trace.head? = some (Event.sign bag signType) := by
  unfold refundQuerySend
  simp only []
  split
  · rfl
  · split
    · rfl
    · split
      · rfl
      · split
        · rfl
        · split <;> rfl

theorem rangeLoop_err_form (param : Param) (visit : List String) (signType : String) (e : Err)
    (h : rangeLoop param visit signType = .err e) :
    ∃ k ∈ visit, e = Err.new ("no need " ++ k) ∧ k ∉ refundQueryAllowed := by
  induction visit generalizing signType with
  | nil => simp [rangeLoop] at h
  | cons k ks ih =>
    simp only [rangeLoop] at h
    split at h
    · exact absurd h (by simp)
    · rename_i st _
      by_cases hk : k ∈ refundQueryAllowed
      · rw [if_neg ((mem_refundQueryAllowed k).mp hk)] at h
        obtain ⟨k', hk', he, hout⟩ := ih st h
        exact ⟨k', List.mem_cons_of_mem _ hk', he, hout⟩
      · have hk' := not_not.mp (fun h => hk ((mem_refundQueryAllowed k).mpr h))
        rw [if_pos hk'] at h
        exact ⟨k, List.mem_cons_self _ _, (Outcome.err.inj h).symm, hk⟩

/-- The rules after the one-of rule never produce one of its two errors. -/
theorem later_rules_err (param : Param) (visit : List String) (signType : String) (e : Err)
    (h : (match rangeLoop param visit signType with
      | .panic => (Outcome.panic : Outcome (Param × String))
      | .err e => .err e
      | .ok st => .ok (param, st)) = .err e) :
    ∃ k ∈ visit, e = Err.new ("no need " ++ k) ∧ k ∉ refundQueryAllowed := by
  cases hr : rangeLoop param visit signType with
  | panic => simp [hr] at h
  | ok st => simp [hr] at h
  | err e' =>
    simp only [hr, Outcome.err.injEq] at h
    subst h
    exact rangeLoop_err_form param visit signType e' hr

/-! ## The validation rules of `RefundQuery` -/

/-- C5: on an initialised payer, with `n` the number of one-of keys present in the bag:
if `n = 0` the call returns the "need one of" error, if `n > 1` the "more than one"
error, in both cases with nothing signed or sent; validation ends in the first error
exactly when `n = 0` and in the second exactly when `n > 1`, so the rule passes only
if `n = 1`. -/
theorem RefundQuery_one_of_rule (d : PayDeps) (m : myPayer) (bag : Param) (visit : List String)
    (hpay : d.checkForPay m = none) :
    (oneOfPresent bag = 0 → RefundQuery d m (some bag) visit = ⟨[], .err errNeedOneOf⟩) ∧
    (oneOfPresent bag > 1 → RefundQuery d m (some bag) visit = ⟨[], .err errMoreThanOne⟩) ∧
    (refundQueryValidate d m (some bag) visit = .err errNeedOneOf ↔ oneOfPresent bag = 0) ∧
    (refundQueryValidate d m (some bag) visit = .err errMoreThanOne ↔ oneOfPresent bag > 1) := by
  have hv := refundQueryValidate_eq d m bag visit hpay
  have hne : errNeedOneOf ≠ errMoreThanOne := by decide
  have hnonce := errNeedOneOf_ne_need "nonce_str" (by simp [refundQueryMustParam])
  by_cases h0 : oneOfPresent bag = 0
  · rw [if_pos h0] at hv
    refine ⟨fun _ => RefundQuery_of_validate_err _ _ _ _ _ hv, fun h => by omega,
      ⟨fun _ => h0, fun _ => hv⟩, ⟨fun h => ?_, fun h => by omega⟩⟩
    rw [hv] at h
    exact absurd (Outcome.err.inj h) hne
  · rw [if_neg h0] at hv
    by_cases h1 : oneOfPresent bag > 1
    · rw [if_pos h1] at hv
      refine ⟨fun h => absurd h h0, fun _ => RefundQuery_of_validate_err _ _ _ _ _ hv,
        ⟨fun h => ?_, fun h => absurd h h0⟩, ⟨fun _ => h1, fun _ => hv⟩⟩
      rw [hv] at h
      exact absurd (Outcome.err.inj h).symm hne
    · rw [if_neg h1] at hv
      refine ⟨fun h => absurd h h0, fun h => absurd h h1,
        ⟨fun h => ?_, fun h => absurd h h0⟩, ⟨fun h => ?_, fun h => absurd h h1⟩⟩
      · exfalso
        rw [hv] at h
        by_cases hn : mapGet bag "nonce_str" = none
        · rw [if_pos hn] at h
          exact hnonce.1 (Outcome.err.inj h)
        · rw [if_neg hn] at h
          obtain ⟨k, _, he, _⟩ := later_rules_err _ _ _ _ h
          exact (no_need_ne k).1 he.symm
      · exfalso
        rw [hv] at h
        by_cases hn : mapGet bag "nonce_str" = none
        · rw [if_pos hn] at h
          exact hnonce.2 (Outcome.err.inj h)
        · rw [if_neg hn] at h
          obtain ⟨k, _, he, _⟩ := later_rules_err _ _ _ _ h
          exact (no_need_ne k).2.1 he.symm

/-- C5, at the bag that holds none of the one-of keys and at the bag that holds two. -/
theorem RefundQuery_one_of_rule_witness :
    samplePayDeps.checkForPay samplePayer = none ∧
    RefundQuery samplePayDeps samplePayer (some noOneOfBag) ["nonce_str", "appid", "mch_id"]
      = ⟨[], .err errNeedOneOf⟩ ∧
    RefundQuery samplePayDeps samplePayer (some twoOneOfBag)
        ["out_trade_no", "refund_id", "colour", "appid", "mch_id"]
      = ⟨[], .err errMoreThanOne⟩ :=
  ⟨rfl,
    (RefundQuery_one_of_rule samplePayDeps samplePayer noOneOfBag
      ["nonce_str", "appid", "mch_id"] rfl).1 (by decide),
    (RefundQuery_one_of_rule samplePayDeps samplePayer twoOneOfBag
      ["out_trade_no", "refund_id", "colour", "appid", "mch_id"] rfl).2.1 (by decide)⟩

theorem RefundQuery_eq_err_iff (d : PayDeps) (m : myPayer) (param : Option Param)
    (visit : List String) (e : Err) :
    RefundQuery d m param visit = ⟨[], .err e⟩ ↔ refundQueryValidate d m param visit = .err e := by
  constructor
  · intro h
    cases hv : refundQueryValidate d m param visit with
    | panic => simp [RefundQuery, hv] at h
    | err e' =>
      simp only [RefundQuery, hv, Run.mk.injEq, Outcome.err.injEq, true_and] at h
      rw [h]
    | ok r =>
      obtain ⟨bag, signType⟩ := r
      rw [RefundQuery_of_validate_ok d m param visit bag signType hv] at h
      have := refundQuerySend_head d bag signType
      rw [h] at this
      simp at this
  · exact RefundQuery_of_validate_err d m param visit e

theorem oneOfPresent_mapDelete (bag : Param) (k : String) (hk : k ∉ refundQueryOneParam) :
    oneOfPresent (mapDelete bag k) = oneOfPresent bag := by
  unfold oneOfPresent
  congr 1
  apply List.filter_congr
  intro k' hk'
  rw [mapGet_mapDelete_ne bag k k' (fun e => hk (e ▸ hk'))]

theorem allowed_of_withIdentity (m : myPayer) (bag : Param) (k : String)
    (hk : mapGet (withIdentity m bag) k ≠ none) (ha : ∀ k ∈ mapKeys bag, k ∈ refundQueryAllowed) :
    k ∈ refundQueryAllowed := by
  rw [mapGet_withIdentity] at hk
  by_cases h1 : k = "mch_id"
  · subst h1
    decide
  · by_cases h2 : k = "appid"
    · subst h2
      decide
    · rw [if_neg h1, if_neg h2] at hk
      exact ha k ((mapGet_ne_none_iff bag k).mp hk)

theorem sign_type_withIdentity (m : myPayer) (bag : Param) :
    mapGet (withIdentity m bag) "sign_type" = mapGet bag "sign_type" := by
  rw [mapGet_withIdentity]
  simp

/-- C6 as stated fails: the bag holding exactly `appid=wx1`, `mch_id=m1` and
`out_trade_no=T1` does not pass validation; the call returns `need nonce_str` and
nothing is signed. -/
theorem RefundQuery_scenario_needs_nonce :
    RefundQuery samplePayDeps samplePayer (some scenarioBag) ["appid", "mch_id", "out_trade_no"]
      = ⟨[], .err (Err.new "need nonce_str")⟩ := by
  decide

/-- C6 amended: on an initialised payer, the bag holding exactly `appid=wx1`,
`mch_id=m1`, `out_trade_no=T1` and `nonce_str=N1` passes validation and the call
proceeds to signing, with the default algorithm; without `nonce_str` the call returns
`need nonce_str`. -/
theorem RefundQuery_scenario_with_nonce (d : PayDeps) (m : myPayer) (visit : List String)
    (hpay : d.checkForPay m = none)
    (hvisit : RangeOrder (withIdentity m scenarioBagNonce) visit) :
    refundQueryValidate d m (some scenarioBagNonce) visit
      = .ok (withIdentity m scenarioBagNonce, d.SignTypeMD5) ∧
    (RefundQuery d m (some scenarioBagNonce) visit).trace.head?
      = some (Event.sign (withIdentity m scenarioBagNonce) d.SignTypeMD5) ∧
    ∀ visit', RefundQuery d m (some scenarioBag) visit'
      = ⟨[], .err (Err.new "need nonce_str")⟩ := by
  have hst : mapGet (withIdentity m scenarioBagNonce) "sign_type" = none := by
    rw [sign_type_withIdentity]
    decide
  have hno : "sign_type" ∉ visit := fun h => (hvisit "sign_type").mp h hst
  have hr := rangeLoop_allowed (withIdentity m scenarioBagNonce) visit d.SignTypeMD5
    (fun v hv => by rw [hst] at hv; cases hv)
    (fun k hk => (hvisit k).mp hk)
    (fun k hk => allowed_of_withIdentity m scenarioBagNonce k ((hvisit k).mp hk) (by decide))
  rw [if_neg hno] at hr
  have hv : refundQueryValidate d m (some scenarioBagNonce) visit
      = .ok (withIdentity m scenarioBagNonce, d.SignTypeMD5) := by
    rw [refundQueryValidate_eq d m _ visit hpay, hr]
    rw [if_neg (by decide), if_neg (by decide), if_neg (by decide)]
  refine ⟨hv, ?_, fun visit' => ?_⟩
  · rw [RefundQuery_of_validate_ok d m _ visit _ _ hv]
    exact refundQuerySend_head d _ _
  · apply RefundQuery_of_validate_err
    rw [refundQueryValidate_eq d m _ visit' hpay]
    rw [if_neg (by decide), if_neg (by decide), if_pos (by decide)]

theorem samplePayer_rangeOrder :
    RangeOrder (withIdentity samplePayer scenarioBagNonce)
      ["appid", "mch_id", "out_trade_no", "nonce_str"] := by
  intro k
  rw [mapGet_withIdentity, List.mem_cons, List.mem_cons, List.mem_cons, List.mem_singleton]
  by_cases h1 : k = "mch_id"
  · subst h1
    simp
  · by_cases h2 : k = "appid"
    · subst h2
      simp
    · rw [if_neg h1, if_neg h2, mapGet_ne_none_iff]
      simp [h1, h2, mapKeys, scenarioBagNonce, scenarioBag]

/-- C6 amended, at the sample payer. -/
theorem RefundQuery_scenario_with_nonce_witness :
    samplePayDeps.checkForPay samplePayer = none ∧
    RangeOrder (withIdentity samplePayer scenarioBagNonce)
      ["appid", "mch_id", "out_trade_no", "nonce_str"] ∧
    refundQueryValidate samplePayDeps samplePayer (some scenarioBagNonce)
        ["appid", "mch_id", "out_trade_no", "nonce_str"]
      = .ok (withIdentity samplePayer scenarioBagNonce, samplePayDeps.SignTypeMD5) ∧
    (RefundQuery samplePayDeps samplePayer (some scenarioBagNonce)
        ["appid", "mch_id", "out_trade_no", "nonce_str"]).trace.head?
      = some (Event.sign (withIdentity samplePayer scenarioBagNonce) samplePayDeps.SignTypeMD5) ∧
    ∀ visit', RefundQuery samplePayDeps samplePayer (some scenarioBag) visit'
      = ⟨[], .err (Err.new "need nonce_str")⟩ :=
  ⟨rfl, samplePayer_rangeOrder,
    RefundQuery_scenario_with_nonce samplePayDeps samplePayer
      ["appid", "mch_id", "out_trade_no", "nonce_str"] rfl samplePayer_rangeOrder⟩

/-! ## Removing a required key -/

theorem checkForPay_of_validate_ok (d : PayDeps) (m : myPayer) (bag : Param) (visit : List String)
    (r : Param × String) (h : refundQueryValidate d m (some bag) visit = .ok r) :
    d.checkForPay m = none := by
  cases hpay : d.checkForPay m with
  | none => rfl
  | some e => simp [refundQueryValidate, hpay] at h

/-- What a bag that passes validation satisfies. -/
theorem validate_ok_inv (d : PayDeps) (m : myPayer) (bag : Param) (visit : List String)
    (r : Param × String) (h : refundQueryValidate d m (some bag) visit = .ok r) :
    oneOfPresent bag = 1 ∧ mapGet bag "nonce_str" ≠ none ∧
      rangeLoop (withIdentity m bag) visit d.SignTypeMD5 = .ok r.2 := by
  have hpay := checkForPay_of_validate_ok d m bag visit r h
  rw [refundQueryValidate_eq d m bag visit hpay] at h
  by_cases h0 : oneOfPresent bag = 0
  · rw [if_pos h0] at h
    cases h
  · rw [if_neg h0] at h
    by_cases h1 : oneOfPresent bag > 1
    · rw [if_pos h1] at h
      cases h
    · rw [if_neg h1] at h
      by_cases hn : mapGet bag "nonce_str" = none
      · rw [if_pos hn] at h
        cases h
      · rw [if_neg hn] at h
        refine ⟨by omega, hn, ?_⟩
        cases hr : rangeLoop (withIdentity m bag) visit d.SignTypeMD5 with
        | panic => simp [hr] at h
        | err e => simp [hr] at h
        | ok st =>
          simp only [hr, Outcome.ok.injEq] at h
          rw [← h]

/-- C7 as stated fails for `appid`: the bag of the scenario with `nonce_str` passes
validation, and with `appid` removed from it the call still passes validation and goes
on to signing, because the payer's own `appid` is stored before the rules are
checked; the error `need appid` is not returned. -/
theorem RefundQuery_removing_appid_passes :
    refundQueryValidate samplePayDeps samplePayer (some scenarioBagNonce)
        ["appid", "mch_id", "out_trade_no", "nonce_str"]
      = .ok (withIdentity samplePayer scenarioBagNonce, "MD5") ∧
    refundQueryValidate samplePayDeps samplePayer (some (mapDelete scenarioBagNonce "appid"))
        ["appid", "mch_id", "out_trade_no", "nonce_str"]
      = .ok ([("mch_id", .str "m1"), ("out_trade_no", .str "T1"), ("nonce_str", .str "N1"),
              ("appid", .str "wx1")], "MD5") ∧
    RefundQuery samplePayDeps samplePayer (some (mapDelete scenarioBagNonce "appid"))
        ["appid", "mch_id", "out_trade_no", "nonce_str"]
      ≠ ⟨[], .err (Err.new "need appid")⟩ := by
  decide

/-- C7 amended: for every caller bag that passes validation, removing `nonce_str`
from it makes `RefundQuery` fail with `need nonce_str`, with nothing signed or sent;
removing `appid` or `mch_id` from it changes nothing, since `RefundQuery` stores both
from the payer's identity before the rules are checked: validation still passes, with
the same signing algorithm. -/
theorem RefundQuery_removing_must_key (d : PayDeps) (m : myPayer) (bag : Param)
    (visit : List String) (r : Param × String)
    (h : refundQueryValidate d m (some bag) visit = .ok r) :
    (∀ visit', RefundQuery d m (some (mapDelete bag "nonce_str")) visit'
      = ⟨[], .err (Err.new "need nonce_str")⟩) ∧
    (∀ k, k = "appid" ∨ k = "mch_id" →
      refundQueryValidate d m (some (mapDelete bag k)) visit
        = .ok (withIdentity m (mapDelete bag k), r.2)) := by
  have hpay := checkForPay_of_validate_ok d m bag visit r h
  obtain ⟨hone, hnonce, hrange⟩ := validate_ok_inv d m bag visit r h
  refine ⟨fun visit' => ?_, fun k hk => ?_⟩
  · apply RefundQuery_of_validate_err
    rw [refundQueryValidate_eq d m _ visit' hpay,
      oneOfPresent_mapDelete bag "nonce_str" (by decide), hone,
      if_neg (by decide), if_neg (by decide), if_pos (mapGet_mapDelete_same bag "nonce_str")]
  · have hk1 : k ∉ refundQueryOneParam := by
      rcases hk with rfl | rfl <;> decide
    have hk2 : k ≠ "nonce_str" := by
      rcases hk with rfl | rfl <;> decide
    have hget : ∀ k', mapGet (withIdentity m (mapDelete bag k)) k'
        = mapGet (withIdentity m bag) k' := by
      intro k'
      rw [mapGet_withIdentity, mapGet_withIdentity]
      by_cases h1 : k' = "mch_id"
      · rw [if_pos h1, if_pos h1]
      · by_cases h2 : k' = "appid"
        · rw [if_neg h1, if_neg h1, if_pos h2, if_pos h2]
        · rw [if_neg h1, if_neg h1, if_neg h2, if_neg h2]
          apply mapGet_mapDelete_ne
          rcases hk with rfl | rfl
          · exact fun e => h2 e.symm
          · exact fun e => h1 e.symm
    rw [refundQueryValidate_eq d m _ visit hpay, oneOfPresent_mapDelete bag k hk1, hone,
      if_neg (by decide), if_neg (by decide), mapGet_mapDelete_ne bag k "nonce_str" hk2,
      if_neg hnonce, rangeLoop_congr _ _ hget, hrange]

/-- C7 amended, at the bag of the scenario with `nonce_str`. -/
theorem RefundQuery_removing_must_key_witness :
    refundQueryValidate samplePayDeps samplePayer (some scenarioBagNonce)
        ["appid", "mch_id", "out_trade_no", "nonce_str"]
      = .ok (withIdentity samplePayer scenarioBagNonce, "MD5") ∧
    (∀ visit', RefundQuery samplePayDeps samplePayer
        (some (mapDelete scenarioBagNonce "nonce_str")) visit'
      = ⟨[], .err (Err.new "need nonce_str")⟩) ∧
    (∀ k, k = "appid" ∨ k = "mch_id" →
      refundQueryValidate samplePayDeps samplePayer (some (mapDelete scenarioBagNonce k))
          ["appid", "mch_id", "out_trade_no", "nonce_str"]
        = .ok (withIdentity samplePayer (mapDelete scenarioBagNonce k), "MD5")) :=
  ⟨by decide,
    RefundQuery_removing_must_key samplePayDeps samplePayer scenarioBagNonce
      ["appid", "mch_id", "out_trade_no", "nonce_str"]
      (withIdentity samplePayer scenarioBagNonce, "MD5") (by decide)⟩

/-! ## The allow-list of `RefundQuery` -/

theorem outside_of_withIdentity (m : myPayer) (bag : Param) (k : String)
    (hk : mapGet (withIdentity m bag) k ≠ none) (hout : k ∉ refundQueryAllowed) :
    k ∈ mapKeys bag := by
  rw [mapGet_withIdentity] at hk
  by_cases h1 : k = "mch_id"
  · subst h1
    exact absurd (by decide) hout
  · by_cases h2 : k = "appid"
    · subst h2
      exact absurd (by decide) hout
    · rw [if_neg h1, if_neg h2] at hk
      exact (mapGet_ne_none_iff bag k).mp hk

theorem withIdentity_of_mem (m : myPayer) (bag : Param) (k : String) (hk : k ∈ mapKeys bag) :
    mapGet (withIdentity m bag) k ≠ none := by
  rw [mapGet_withIdentity]
  by_cases h1 : k = "mch_id"
  · simp [h1]
  · by_cases h2 : k = "appid"
    · simp [h2]
    · rw [if_neg h1, if_neg h2]
      exact (mapGet_ne_none_iff bag k).mpr hk

/-- C8: on an initialised payer, for a bag with exactly one one-of key, with
`nonce_str` present and with `sign_type` absent or a string, and for every order in
which `range` may visit the keys: `RefundQuery` returns the error `no need k` for some
key `k` exactly when the bag holds a key outside the union of the must, one-of and
optional lists; every `k` reported is a key of the bag outside that union; and when the
bag holds no such key validation passes. -/
theorem RefundQuery_allow_list (d : PayDeps) (m : myPayer) (bag : Param) (visit : List String)
    (hpay : d.checkForPay m = none) (hone : oneOfPresent bag = 1)
    (hmust : mapGet bag "nonce_str" ≠ none)
    (hs : ∀ v, mapGet bag "sign_type" = some v → ∃ s, v = .str s)
    (hvisit : RangeOrder (withIdentity m bag) visit) :
    ((∃ k, RefundQuery d m (some bag) visit = ⟨[], .err (Err.new ("no need " ++ k))⟩) ↔
      ∃ k ∈ mapKeys bag, k ∉ refundQueryAllowed) ∧
    (∀ k, RefundQuery d m (some bag) visit = ⟨[], .err (Err.new ("no need " ++ k))⟩ →
      k ∈ mapKeys bag ∧ k ∉ refundQueryAllowed) ∧
    ((∀ k ∈ mapKeys bag, k ∈ refundQueryAllowed) →
      refundQueryValidate d m (some bag) visit =
        .ok (withIdentity m bag,
          if mapGet bag "sign_type" = none then d.SignTypeMD5
          else GetString bag "sign_type")) := by
  have hs' : ∀ v, mapGet (withIdentity m bag) "sign_type" = some v → ∃ s, v = .str s := by
    intro v hv
    rw [sign_type_withIdentity] at hv
    exact hs v hv
  have hp : ∀ k ∈ visit, mapGet (withIdentity m bag) k ≠ none := fun k hk => (hvisit k).mp hk
  have hv : refundQueryValidate d m (some bag) visit =
      match rangeLoop (withIdentity m bag) visit d.SignTypeMD5 with
      | .panic => .panic
      | .err e => .err e
      | .ok signType => .ok (withIdentity m bag, signType) := by
    rw [refundQueryValidate_eq d m bag visit hpay, hone, if_neg (by decide),
      if_neg (by decide), if_neg hmust]
  have hreported : ∀ k,
      RefundQuery d m (some bag) visit = ⟨[], .err (Err.new ("no need " ++ k))⟩ →
      k ∈ mapKeys bag ∧ k ∉ refundQueryAllowed := by
    intro k hk
    have hk' := (RefundQuery_eq_err_iff d m _ visit _).mp hk
    rw [hv] at hk'
    obtain ⟨k', hmem, he, hout⟩ := later_rules_err _ _ _ _ hk'
    have hkk : k = k' := string_append_left_cancel (Err.new.inj he)
    subst hkk
    exact ⟨outside_of_withIdentity m bag k (hp k hmem) hout, hout⟩
  refine ⟨⟨fun ⟨k, hk⟩ => ⟨k, (hreported k hk).1, (hreported k hk).2⟩, ?_⟩, hreported, ?_⟩
  · rintro ⟨k, hk, hout⟩
    have hex : ∃ k ∈ visit, k ∉ refundQueryAllowed :=
      ⟨k, (hvisit k).mpr (withIdentity_of_mem m bag k hk), hout⟩
    obtain ⟨k', _, _, hr⟩ := rangeLoop_outside _ visit d.SignTypeMD5 hs' hp hex
    refine ⟨k', (RefundQuery_eq_err_iff d m _ visit _).mpr ?_⟩
    rw [hv, hr]
  · intro ha
    have hr := rangeLoop_allowed _ visit d.SignTypeMD5 hs' hp
      (fun k hk => allowed_of_withIdentity m bag k (hp k hk) ha)
    rw [hv, hr]
    by_cases hst : mapGet bag "sign_type" = none
    · have : "sign_type" ∉ visit := fun h => (hvisit _).mp h (by
        rw [sign_type_withIdentity]
        exact hst)
      rw [if_neg this, if_pos hst]
    · have : "sign_type" ∈ visit := (hvisit _).mpr (by
        rw [sign_type_withIdentity]
        exact hst)
      rw [if_pos this, if_neg hst]
      simp [GetString, sign_type_withIdentity]

theorem colourBag_sign_type (v : Value) (hv : mapGet colourBag "sign_type" = some v) :
    ∃ s, v = .str s := by
  rw [show mapGet colourBag "sign_type" = none by decide] at hv
  cases hv

theorem colourBag_rangeOrder :
    RangeOrder (withIdentity samplePayer colourBag)
      ["appid", "colour", "mch_id", "nonce_str", "out_trade_no"] := by
  intro k
  rw [mapGet_withIdentity, List.mem_cons, List.mem_cons, List.mem_cons, List.mem_cons,
    List.mem_singleton]
  by_cases h1 : k = "mch_id"
  · subst h1
    simp
  · by_cases h2 : k = "appid"
    · subst h2
      simp
    · rw [if_neg h1, if_neg h2, mapGet_ne_none_iff]
      simp [h1, h2, mapKeys, colourBag]
      tauto

/-- C8, at a bag that holds the unknown key `colour`. -/
theorem RefundQuery_allow_list_witness :
    samplePayDeps.checkForPay samplePayer = none ∧ oneOfPresent colourBag = 1 ∧
    mapGet colourBag "nonce_str" ≠ none ∧
    (∀ v, mapGet colourBag "sign_type" = some v → ∃ s, v = .str s) ∧
    RangeOrder (withIdentity samplePayer colourBag)
      ["appid", "colour", "mch_id", "nonce_str", "out_trade_no"] ∧
    ((∃ k, RefundQuery samplePayDeps samplePayer (some colourBag)
        ["appid", "colour", "mch_id", "nonce_str", "out_trade_no"]
          = ⟨[], .err (Err.new ("no need " ++ k))⟩) ↔
      ∃ k ∈ mapKeys colourBag, k ∉ refundQueryAllowed) :=
  ⟨rfl, by decide, by decide, colourBag_sign_type, colourBag_rangeOrder,
    (RefundQuery_allow_list samplePayDeps samplePayer colourBag
      ["appid", "colour", "mch_id", "nonce_str", "out_trade_no"] rfl (by decide) (by decide)
      colourBag_sign_type colourBag_rangeOrder).1⟩

/-! ## The order of the rules of `RefundQuery` -/

/-- C10: on an initialised payer the rules are checked in the order one-of count,
missing required key, unexpected key. A bag with no one-of key returns the "need one
of" error and a bag with more than one the "more than one" error, whatever else is
missing or unexpected in it; a bag with exactly one one-of key and no `nonce_str`
returns `need nonce_str`, whatever unexpected keys it holds and in whatever order
they are visited; in each case nothing is signed or sent. -/
theorem RefundQuery_rule_order (d : PayDeps) (m : myPayer) (bag : Param) (visit : List String)
    (hpay : d.checkForPay m = none) :
    (oneOfPresent bag = 0 → RefundQuery d m (some bag) visit = ⟨[], .err errNeedOneOf⟩) ∧
    (oneOfPresent bag > 1 → RefundQuery d m (some bag) visit = ⟨[], .err errMoreThanOne⟩) ∧
    (oneOfPresent bag = 1 → mapGet bag "nonce_str" = none →
      RefundQuery d m (some bag) visit = ⟨[], .err (Err.new "need nonce_str")⟩) := by
  have hv := refundQueryValidate_eq d m bag visit hpay
  refine ⟨fun h0 => ?_, fun h1 => ?_, fun h1 hn => ?_⟩
  · apply RefundQuery_of_validate_err
    rw [hv, if_pos h0]
  · apply RefundQuery_of_validate_err
    rw [hv, if_neg (by omega), if_pos h1]
  · apply RefundQuery_of_validate_err
    rw [hv, if_neg (by omega), if_neg (by omega), if_pos hn]

/-- C10, at the two bags of the claim: two one-of keys, no `nonce_str` and an unknown
key give "more than one"; one one-of key, no `nonce_str` and an unknown key give
`need nonce_str`. -/
theorem RefundQuery_rule_order_witness :
    samplePayDeps.checkForPay samplePayer = none ∧
    oneOfPresent twoOneOfBag > 1 ∧ mapGet twoOneOfBag "nonce_str" = none ∧
    "colour" ∈ mapKeys twoOneOfBag ∧ "colour" ∉ refundQueryAllowed ∧
    RefundQuery samplePayDeps samplePayer (some twoOneOfBag)
        ["colour", "out_trade_no", "refund_id", "appid", "mch_id"]
      = ⟨[], .err errMoreThanOne⟩ ∧
    oneOfPresent unknownKeyBag = 1 ∧ mapGet unknownKeyBag "nonce_str" = none ∧
    "colour" ∈ mapKeys unknownKeyBag ∧
    RefundQuery samplePayDeps samplePayer (some unknownKeyBag)
        ["colour", "out_trade_no", "appid", "mch_id"]
      = ⟨[], .err (Err.new "need nonce_str")⟩ :=
  ⟨rfl, by decide, by decide, by decide, by decide,
    (RefundQuery_rule_order samplePayDeps samplePayer twoOneOfBag
      ["colour", "out_trade_no", "refund_id", "appid", "mch_id"] rfl).2.1 (by decide),
    by decide, by decide, by decide,
    (RefundQuery_rule_order samplePayDeps samplePayer unknownKeyBag
      ["colour", "out_trade_no", "appid", "mch_id"] rfl).2.2 (by decide) (by decide)⟩

/-! ## The response of `RefundQuery` -/

/-- The request that `refundQuerySend` hands to the transport. -/
theorem refundQuerySend_after_post (d : PayDeps) (bag : Param) (signType reader : String)
    (result : Params)
    (hm : d.MarshalXML (ParamAdd bag "sign" (.str (d.Sign bag signType))) = .ok reader)
    (hpost : d.postToWx
      { Body := reader, Url := queryRefundUrl, ContentType := "application/xml;charset=utf-8" }
        = .ok result) :
    refundQuerySend d bag signType =
      if GetString result "return_code" ≠ "SUCCESS" then
        ⟨[Event.sign bag signType,
          Event.post queryRefundUrl "application/xml;charset=utf-8"
            (ParamAdd bag "sign" (.str (d.Sign bag signType)))],
         .err (Err.new (GetString result "return_msg"))⟩
      else if GetString result "result_code" ≠ "SUCCESS" then
        ⟨[Event.sign bag signType,
          Event.post queryRefundUrl "application/xml;charset=utf-8"
            (ParamAdd bag "sign" (.str (d.Sign bag signType)))],
         .err (Err.new (GetString result "err_code_des"))⟩
      else if GetString result "sign" ≠ d.ResultSign result signType then
        ⟨[Event.sign bag signType,
          Event.post queryRefundUrl "application/xml;charset=utf-8"
            (ParamAdd bag "sign" (.str (d.Sign bag signType))),
          Event.verify result signType], .err Err.ErrCheckSign⟩
      else
        ⟨[Event.sign bag signType,
          Event.post queryRefundUrl "application/xml;charset=utf-8"
            (ParamAdd bag "sign" (.str (d.Sign bag signType))),
          Event.verify result signType], .ok result⟩ := by
  simp only [refundQuerySend, hm, hpost]
  split
  · rfl
  · split
    · rfl
    · split <;> rfl

/-- What holds of a response that `refundQuerySend` returns. -/
theorem refundQuerySend_ok (d : PayDeps) (bag : Param) (signType : String) (result : Params)
    (h : (refundQuerySend d bag signType).out = .ok result) :
    GetString result "return_code" = "SUCCESS" ∧ GetString result "result_code" = "SUCCESS" ∧
      GetString result "sign" = d.ResultSign result signType := by
  cases hm : d.MarshalXML (ParamAdd bag "sign" (.str (d.Sign bag signType))) with
  | error e => simp [refundQuerySend, hm] at h
  | ok reader =>
    cases hpost : d.postToWx
        { Body := reader, Url := queryRefundUrl,
          ContentType := "application/xml;charset=utf-8" } with
    | error e => simp [refundQuerySend, hm, hpost] at h
    | ok res =>
      rw [refundQuerySend_after_post d bag signType reader res hm hpost] at h
      by_cases h1 : GetString res "return_code" ≠ "SUCCESS"
      · rw [if_pos h1] at h
        cases h
      · rw [if_neg h1] at h
        by_cases h2 : GetString res "result_code" ≠ "SUCCESS"
        · rw [if_pos h2] at h
          cases h
        · rw [if_neg h2] at h
          by_cases h3 : GetString res "sign" ≠ d.ResultSign res signType
          · rw [if_pos h3] at h
            cases h
          · rw [if_neg h3] at h
            have hr : res = result := Outcome.ok.inj h
            subst hr
            exact ⟨not_not.mp h1, not_not.mp h2, not_not.mp h3⟩

/-- C11: `RefundQuery` returns a response bag only if the request passed validation
with some signing algorithm, the response's `return_code` and `result_code` are both
`SUCCESS`, and the carried `sign` equals the signature recomputed over the response
with that algorithm; and whenever the gateway answers with both codes `SUCCESS` and a
carried `sign` that differs from the recomputed one, the call returns `ErrCheckSign`
and no bag. -/
theorem RefundQuery_returns_only_verified (d : PayDeps) (m : myPayer) (param : Option Param)
    (visit : List String) :
    (∀ result, (RefundQuery d m param visit).out = .ok result →
      ∃ bag signType, refundQueryValidate d m param visit = .ok (bag, signType) ∧
        GetString result "return_code" = "SUCCESS" ∧
        GetString result "result_code" = "SUCCESS" ∧
        GetString result "sign" = d.ResultSign result signType) ∧
    (∀ bag signType reader result,
      refundQueryValidate d m param visit = .ok (bag, signType) →
      d.MarshalXML (ParamAdd bag "sign" (.str (d.Sign bag signType))) = .ok reader →
      d.postToWx
        { Body := reader, Url := queryRefundUrl,
          ContentType := "application/xml;charset=utf-8" } = .ok result →
      GetString result "return_code" = "SUCCESS" →
      GetString result "result_code" = "SUCCESS" →
      GetString result "sign" ≠ d.ResultSign result signType →
      (RefundQuery d m param visit).out = .err Err.ErrCheckSign) := by
  constructor
  · intro result h
    cases hv : refundQueryValidate d m param visit with
    | panic => simp [RefundQuery, hv] at h
    | err e => simp [RefundQuery, hv] at h
    | ok r =>
      obtain ⟨bag, signType⟩ := r
      rw [RefundQuery_of_validate_ok d m param visit bag signType hv] at h
      exact ⟨bag, signType, rfl, refundQuerySend_ok d bag signType result h⟩
  · intro bag signType reader result hv hm hpost h1 h2 h3
    rw [RefundQuery_of_validate_ok d m param visit bag signType hv,
      refundQuerySend_after_post d bag signType reader result hm hpost,
      if_neg (not_not.mpr h1), if_neg (not_not.mpr h2), if_pos h3]

/-- C11, at a gateway that answers `SUCCESS`, `SUCCESS` and the signature `bad`: the
call returns `ErrCheckSign`. -/
theorem RefundQuery_returns_only_verified_witness :
    refundQueryValidate badSignPayDeps samplePayer (some scenarioBagNonce)
        ["appid", "mch_id", "out_trade_no", "nonce_str"]
      = .ok (withIdentity samplePayer scenarioBagNonce, "MD5") ∧
    GetString [("return_code", .str "SUCCESS"), ("result_code", .str "SUCCESS"),
      ("sign", .str "bad")] "sign"
      ≠ badSignPayDeps.ResultSign [("return_code", .str "SUCCESS"),
          ("result_code", .str "SUCCESS"), ("sign", .str "bad")] "MD5" ∧
    (RefundQuery badSignPayDeps samplePayer (some scenarioBagNonce)
        ["appid", "mch_id", "out_trade_no", "nonce_str"]).out = .err Err.ErrCheckSign :=
  ⟨by decide, by decide,
    (RefundQuery_returns_only_verified badSignPayDeps samplePayer (some scenarioBagNonce)
      ["appid", "mch_id", "out_trade_no", "nonce_str"]).2
      (withIdentity samplePayer scenarioBagNonce) "MD5" "<xml/>"
      [("return_code", .str "SUCCESS"), ("result_code", .str "SUCCESS"), ("sign", .str "bad")]
      (by decide) rfl rfl (by decide) (by decide) (by decide)⟩

/-- C12: when the request passes validation and the gateway answers with a bag whose
`return_code` is not `SUCCESS` (absent included), `RefundQuery` returns the error whose
message is the response's `return_msg` and no bag; the request was signed and sent,
and no signature of the response is computed or compared. The outcome is a function of
`return_msg` alone, whatever the response's `sign` and `result_code`. -/
theorem RefundQuery_return_code_failure (d : PayDeps) (m : myPayer) (param : Option Param)
    (visit : List String) (bag : Param) (signType reader : String) (result : Params)
    (hv : refundQueryValidate d m param visit = .ok (bag, signType))
    (hm : d.MarshalXML (ParamAdd bag "sign" (.str (d.Sign bag signType))) = .ok reader)
    (hpost : d.postToWx
      { Body := reader, Url := queryRefundUrl, ContentType := "application/xml;charset=utf-8" }
        = .ok result)
    (hcode : GetString result "return_code" ≠ "SUCCESS") :
    RefundQuery d m param visit =
      ⟨[Event.sign bag signType,
        Event.post queryRefundUrl "application/xml;charset=utf-8"
          (ParamAdd bag "sign" (.str (d.Sign bag signType)))],
       .err (Err.new (GetString result "return_msg"))⟩ ∧
    (∀ b st, Event.verify b st ∉ (RefundQuery d m param visit).trace) := by
  have h : RefundQuery d m param visit =
      ⟨[Event.sign bag signType,
        Event.post queryRefundUrl "application/xml;charset=utf-8"
          (ParamAdd bag "sign" (.str (d.Sign bag signType)))],
       .err (Err.new (GetString result "return_msg"))⟩ := by
    rw [RefundQuery_of_validate_ok d m param visit bag signType hv,
      refundQuerySend_after_post d bag signType reader result hm hpost, if_pos hcode]
  refine ⟨h, fun b st hmem => ?_⟩
  rw [h] at hmem
  simp at hmem

/-- C12, at the gateway that answers `return_code=FAIL`, `return_msg=system busy`: the
error is `system busy`. -/
theorem RefundQuery_return_code_failure_witness :
    refundQueryValidate samplePayDeps samplePayer (some scenarioBagNonce)
        ["appid", "mch_id", "out_trade_no", "nonce_str"]
      = .ok (withIdentity samplePayer scenarioBagNonce, "MD5") ∧
    GetString [("return_code", .str "FAIL"), ("return_msg", .str "system busy")] "return_code"
      ≠ "SUCCESS" ∧
    (RefundQuery samplePayDeps samplePayer (some scenarioBagNonce)
        ["appid", "mch_id", "out_trade_no", "nonce_str"]).out
      = .err (Err.new "system busy") :=
  ⟨by decide, by decide,
    by
      have h := (RefundQuery_return_code_failure samplePayDeps samplePayer
        (some scenarioBagNonce) ["appid", "mch_id", "out_trade_no", "nonce_str"]
        (withIdentity samplePayer scenarioBagNonce) "MD5" "<xml/>"
        [("return_code", .str "FAIL"), ("return_msg", .str "system busy")]
        (by decide) rfl rfl (by decide)).1
      rw [h]
      rfl⟩

/-! ## The response of `DoUnifiedOrder` -/

/-- C13, evaluated: a response that carries the signature of the request is returned
although the signature recomputed over the response's own fields is another string;
a response that carries the signature recomputed over its own fields is rejected with
`sign wrong`. The carried `sign` is compared with the signature of the request. -/
theorem DoUnifiedOrder_compares_with_request_sign :
    (DoUnifiedOrder echoOrderDeps (sampleClient sampleOrderParams)).out =
      .ok ⟨"UP(md5(appid=wx1&body=b&mch_id=m1&nonce_str=n1&notify_url=u&out_trade_no=T1&spbill_create_ip=ip&total_fee=1&trade_type=JSAPI&key=s))",
        sampleResponseFields⟩ ∧
    sampleClientDeps.ToUpper (sampleClientDeps.signMd5 (canonicalString sampleResponseFields "s"))
      = "UP(md5(prepay_id=p1&return_code=SUCCESS&key=s))" ∧
    "UP(md5(appid=wx1&body=b&mch_id=m1&nonce_str=n1&notify_url=u&out_trade_no=T1&spbill_create_ip=ip&total_fee=1&trade_type=JSAPI&key=s))"
      ≠ "UP(md5(prepay_id=p1&return_code=SUCCESS&key=s))" ∧
    (DoUnifiedOrder signingOrderDeps (sampleClient sampleOrderParams)).out =
      .err (Err.new "sign wrong") := by
  decide

/-! ## Value sensitivity -/

theorem string_append_right_cancel {a b c : String} (h : a ++ c = b ++ c) : a = b := by
  have := congrArg String.data h
  simp only [String.data_append, List.append_cancel_right_eq] at this
  exact String.ext this

theorem intercalate_go_acc (a b sep : String) (l : List String) :
    String.intercalate.go (a ++ b) sep l = a ++ String.intercalate.go b sep l := by
  induction l generalizing b with
  | nil => simp [String.intercalate.go]
  | cons x xs ih =>
    simp only [String.intercalate.go]
    rw [String.append_assoc, String.append_assoc, ← String.append_assoc b, ih]

theorem intercalate_go_split (acc sep : String) (xs ys : List String) (y : String) :
    String.intercalate.go acc sep (xs ++ y :: ys) =
      String.intercalate.go acc sep xs ++ sep ++ y ++ String.intercalate.go "" sep ys := by
  induction xs generalizing acc with
  | nil =>
    simp only [List.nil_append, String.intercalate.go]
    have := intercalate_go_acc (acc ++ sep ++ y) "" sep ys
    rw [String.append_empty] at this
    exact this
  | cons x xs ih =>
    simp only [List.cons_append, String.intercalate.go]
    exact ih _

/-- The joined string around one of its pieces: what stands before and after the
piece does not depend on it. -/
theorem intercalate_split (sep : String) (xs ys : List String) :
    ∃ P Q, ∀ y, sep.intercalate (xs ++ y :: ys) = P ++ y ++ Q := by
  cases xs with
  | nil =>
    refine ⟨"", String.intercalate.go "" sep ys, fun y => ?_⟩
    simp only [List.nil_append, String.intercalate]
    have := intercalate_go_acc y "" sep ys
    rw [String.append_empty] at this
    rw [this, String.empty_append]
  | cons x xs =>
    refine ⟨String.intercalate.go x sep xs ++ sep, String.intercalate.go "" sep ys, fun y => ?_⟩
    simp only [List.cons_append, String.intercalate]
    exact intercalate_go_split x sep xs ys y

theorem referenceKeys_nodup (cp : Param) : (referenceKeys cp).Nodup := by
  unfold referenceKeys
  rw [List.nodup_append]
  refine ⟨by decide, List.Nodup.filter _ (by decide), ?_⟩
  intro a ha hb
  have h1 : a ∈ UnifiedOrderMustParam := (List.mem_filter.mp ha).1
  have h2 : a ∈ UnifiedOrderOptionalParam := (List.mem_filter.mp hb).1
  have : ∀ a ∈ UnifiedOrderMustParam, a ∉ UnifiedOrderOptionalParam := by decide
  exact this a h1 h2

theorem referenceKeys_congr (cp₁ cp₂ : Param)
    (hkeys : ∀ k, mapGet cp₁ k = none ↔ mapGet cp₂ k = none) :
    referenceKeys cp₁ = referenceKeys cp₂ := by
  unfold referenceKeys
  congr 1
  apply List.filter_congr
  intro k _
  cases h1 : mapGet cp₁ k with
  | none => simp [(hkeys k).mp h1]
  | some v =>
    cases h2 : mapGet cp₂ k with
    | none => rw [(hkeys k).mpr h2] at h1; cases h1
    | some w => simp

theorem referenceCanonical_injective (cp₁ cp₂ : Param) (appSecret k₀ : String)
    (hkeys : ∀ k, mapGet cp₁ k = none ↔ mapGet cp₂ k = none)
    (hk₀ : k₀ ∈ referenceKeys cp₁)
    (hdiff : fmtV (mapGet cp₁ k₀) ≠ fmtV (mapGet cp₂ k₀))
    (hsame : ∀ k ∈ referenceKeys cp₁, k ≠ k₀ → mapGet cp₁ k = mapGet cp₂ k) :
    referenceCanonical cp₁ appSecret ≠ referenceCanonical cp₂ appSecret := by
  intro heq
  unfold referenceCanonical at heq
  rw [← referenceKeys_congr cp₁ cp₂ hkeys] at heq
  have hnodup : (sortStrings (referenceKeys cp₁)).Nodup :=
    (sortStrings_perm _).nodup_iff.mpr (referenceKeys_nodup cp₁)
  obtain ⟨s, t, hst⟩ := List.append_of_mem ((mem_sortStrings _ _).mpr hk₀)
  rw [hst] at heq hnodup
  have hmem : ∀ k, k ∈ s ∨ k ∈ t → k ∈ referenceKeys cp₁ ∧ k ≠ k₀ := by
    intro k hk
    constructor
    · apply (mem_sortStrings _ _).mp
      rw [hst]
      rcases hk with h | h
      · exact List.mem_append_left _ h
      · exact List.mem_append_right _ (List.mem_cons_of_mem _ h)
    · rintro rfl
      rw [List.nodup_append] at hnodup
      rcases hk with h | h
      · exact hnodup.2.2 h (List.mem_cons_self _ _)
      · exact (List.nodup_cons.mp hnodup.2.1).1 h
  have hs : s.map (renderPair cp₂) = s.map (renderPair cp₁) := by
    apply List.map_congr_left
    intro k hk
    obtain ⟨h1, h2⟩ := hmem k (Or.inl hk)
    simp [renderPair, hsame k h1 h2]
  have ht : t.map (renderPair cp₂) = t.map (renderPair cp₁) := by
    apply List.map_congr_left
    intro k hk
    obtain ⟨h1, h2⟩ := hmem k (Or.inr hk)
    simp [renderPair, hsame k h1 h2]
  simp only [List.map_append, List.map_cons, hs, ht] at heq
  obtain ⟨P, Q, hPQ⟩ := intercalate_split "&" (s.map (renderPair cp₁)) (t.map (renderPair cp₁))
  rw [hPQ, hPQ] at heq
  have h1 := string_append_right_cancel (string_append_right_cancel heq)
  have h2 := string_append_right_cancel h1
  have h3 := string_append_left_cancel h2
  unfold renderPair at h3
  exact hdiff (string_append_left_cancel h3)

/-- C14 as stated fails: two parameter sets with the same keys that differ in the
value of `total_fee` alone, the integer `1` in one and the string `1` in the other, give
the same string to the digest. -/
theorem DoUnifiedOrder_same_text_same_digest :
    mapKeys sampleOrderParamsFeeText = mapKeys sampleOrderParams ∧
    mapGet sampleOrderParams "total_fee" = some (.int 1) ∧
    mapGet sampleOrderParamsFeeText "total_fee" = some (.str "1") ∧
    Value.int 1 ≠ Value.str "1" ∧
    (∀ k ∈ mapKeys sampleOrderParams, k ≠ "total_fee" →
      mapGet sampleOrderParamsFeeText k = mapGet sampleOrderParams k) ∧
    (DoUnifiedOrder sampleClientDeps (sampleClient sampleOrderParams)).trace.head? =
      some (Event.digest "MD5"
        "appid=wx1&body=b&mch_id=m1&nonce_str=n1&notify_url=u&out_trade_no=T1&spbill_create_ip=ip&total_fee=1&trade_type=JSAPI&key=s") ∧
    (DoUnifiedOrder sampleClientDeps (sampleClient sampleOrderParamsFeeText)).trace.head? =
      some (Event.digest "MD5"
        "appid=wx1&body=b&mch_id=m1&nonce_str=n1&notify_url=u&out_trade_no=T1&spbill_create_ip=ip&total_fee=1&trade_type=JSAPI&key=s") := by
  decide

/-- C14 amended: for every two parameter sets with the same keys and the same secret
that pass the required-parameter check, whose values under one included key print
(`%v`) differently and whose values under every other included key are the same, the
strings `DoUnifiedOrder` feeds to the digest differ. -/
theorem DoUnifiedOrder_value_sensitive (cp₁ cp₂ params₁ params₂ : Param)
    (names₁ names₂ : List String) (appSecret k₀ : String)
    (h₁ : unifiedOrderParams cp₁ = .ok (params₁, names₁))
    (h₂ : unifiedOrderParams cp₂ = .ok (params₂, names₂))
    (hkeys : ∀ k, mapGet cp₁ k = none ↔ mapGet cp₂ k = none)
    (hk₀ : k₀ ∈ referenceKeys cp₁)
    (hdiff : fmtV (mapGet cp₁ k₀) ≠ fmtV (mapGet cp₂ k₀))
    (hsame : ∀ k ∈ referenceKeys cp₁, k ≠ k₀ → mapGet cp₁ k = mapGet cp₂ k) :
    unifiedOrderToBeSignStr params₁ names₁ appSecret
      ≠ unifiedOrderToBeSignStr params₂ names₂ appSecret := by
  rw [toBeSignStr_eq_reference cp₁ params₁ names₁ appSecret h₁,
    toBeSignStr_eq_reference cp₂ params₂ names₂ appSecret h₂]
  exact referenceCanonical_injective cp₁ cp₂ appSecret k₀ hkeys hk₀ hdiff hsame

theorem sampleOrderParamsBody_keys (k : String) :
    mapGet sampleOrderParams k = none ↔ mapGet sampleOrderParamsBody k = none := by
  unfold sampleOrderParamsBody
  by_cases hk : k = "body"
  · subst hk
    rw [mapGet_mapSet_same]
    simp
    decide
  · rw [mapGet_mapSet_ne _ _ _ _ (fun e => hk e.symm)]

/-- C14 amended, at the sample parameter set and the same set with another `body`. -/
theorem DoUnifiedOrder_value_sensitive_witness :
    unifiedOrderParams sampleOrderParams = .ok (sampleOrderParams, mapKeys sampleOrderParams) ∧
    unifiedOrderParams sampleOrderParamsBody
      = .ok (sampleOrderParamsBody, mapKeys sampleOrderParamsBody) ∧
    (∀ k, mapGet sampleOrderParams k = none ↔ mapGet sampleOrderParamsBody k = none) ∧
    "body" ∈ referenceKeys sampleOrderParams ∧
    fmtV (mapGet sampleOrderParams "body") ≠ fmtV (mapGet sampleOrderParamsBody "body") ∧
    (∀ k ∈ referenceKeys sampleOrderParams, k ≠ "body" →
      mapGet sampleOrderParams k = mapGet sampleOrderParamsBody k) ∧
    unifiedOrderToBeSignStr sampleOrderParams (mapKeys sampleOrderParams) "s"
      ≠ unifiedOrderToBeSignStr sampleOrderParamsBody (mapKeys sampleOrderParamsBody) "s" :=
  ⟨rfl, rfl, sampleOrderParamsBody_keys, by decide, by decide, by decide,
    DoUnifiedOrder_value_sensitive sampleOrderParams sampleOrderParamsBody sampleOrderParams
      sampleOrderParamsBody (mapKeys sampleOrderParams) (mapKeys sampleOrderParamsBody) "s" "body"
      rfl rfl sampleOrderParamsBody_keys (by decide) (by decide) (by decide)⟩

/-! ## Values that are not strings under `sign_type` -/

/-- C15, evaluated: a refund query that satisfies every rule and holds an integer
under `sign_type` ends in a run-time abort, whether `range` visits `sign_type` first
or last, and so does a unified order whose required parameters are present and whose
`sign_type` holds an integer; nothing is signed or sent. -/
theorem sign_type_assertion_aborts :
    RefundQuery samplePayDeps samplePayer (some intSignTypeBag)
        ["sign_type", "nonce_str", "out_trade_no", "appid", "mch_id"] = ⟨[], .panic⟩ ∧
    RefundQuery samplePayDeps samplePayer (some intSignTypeBag)
        ["nonce_str", "out_trade_no", "appid", "mch_id", "sign_type"] = ⟨[], .panic⟩ ∧
    DoUnifiedOrder sampleClientDeps (sampleClient sampleOrderParamsIntSignType) = ⟨[], .panic⟩ := by
  decide

/-! ## `RefundNotify` -/

/-- C16: for every notification that decodes and whose `req_info` is empty (an absent
element leaves the field empty), `RefundNotify` returns the error `wx response without
req_info` and no result, and decryption is not invoked. That error is none of the
errors of the decryption step, and a failure of the decryption step, which happens only
for a notification with a non-empty `req_info`, is returned as its own error. -/
theorem RefundNotify_without_req_info (d : NotifyDeps) (m : myPayer) (body : String)
    (r : refundNotifyResult) (hdec : d.xmlDecode body = .ok r) (hreq : r.ReqInfo = "") :
    RefundNotify d m (some body) = ⟨[], .err errNoReqInfo⟩ ∧
    (∀ c k, Event.decrypt c k ∉ (RefundNotify d m (some body)).trace) ∧
    (∀ stage, errNoReqInfo ≠ Err.crypto stage) ∧
    (∀ body' r' stage, d.xmlDecode body' = .ok r' → r'.ReqInfo ≠ "" →
      d.AES256ECBDecrypt (utf8Bytes (EncodeToString (utf8Bytes r'.ReqInfo)))
        (utf8Bytes (d.ToLower (d.SignMd5 m.apiKey))) = .error stage →
      (RefundNotify d m (some body')).out = .err (Err.crypto stage) ∧
      (RefundNotify d m (some body')).out ≠ (RefundNotify d m (some body)).out) := by
  have h : RefundNotify d m (some body) = ⟨[], .err errNoReqInfo⟩ := by
    simp [RefundNotify, hdec, hreq, errNoReqInfo]
  refine ⟨h, fun c k hmem => ?_, fun stage hs => ?_, fun body' r' stage hd hne hfail => ?_⟩
  · rw [h] at hmem
    simp at hmem
  · simp [errNoReqInfo] at hs
  · have h' : (RefundNotify d m (some body')).out = .err (Err.crypto stage) := by
      simp [RefundNotify, hd, hne, hfail]
    refine ⟨h', ?_⟩
    rw [h', h]
    simp [errNoReqInfo]

/-- C16, at a notification whose body gives an empty `req_info`. -/
theorem RefundNotify_without_req_info_witness :
    sampleNotifyDeps.xmlDecode "" = .ok { zeroNotifyResult with ReturnCode := "SUCCESS" } ∧
    ({ zeroNotifyResult with ReturnCode := "SUCCESS" } : refundNotifyResult).ReqInfo = "" ∧
    RefundNotify sampleNotifyDeps samplePayer (some "") = ⟨[], .err errNoReqInfo⟩ :=
  ⟨rfl, rfl,
    (RefundNotify_without_req_info sampleNotifyDeps samplePayer ""
      { zeroNotifyResult with ReturnCode := "SUCCESS" } rfl rfl).1⟩

/-- C17, evaluated at `req_info = QUJD`, the base64 text of the bytes `65 66 67`: the
cipher-text handed to the decryption is the bytes of `UVVKRA==`, the base64 encoding
of the text `QUJD`, and not the bytes `65 66 67` that the text decodes to. The key
handed to it is the lower-cased MD5 text of the merchant key. -/
theorem RefundNotify_encodes_req_info :
    (RefundNotify sampleNotifyDeps samplePayer (some "QUJD")).trace =
      [Event.decrypt (utf8Bytes "UVVKRA==") (utf8Bytes "low(MD5(s))")] ∧
    EncodeToString (utf8Bytes "QUJD") = "UVVKRA==" ∧
    EncodeToString [65, 66, 67] = "QUJD" ∧
    utf8Bytes "UVVKRA==" ≠ [65, 66, 67] := by
  decide

/-! ## The client parameter set -/

theorem AddParam_eq (client : myWeClient) (k : String) (v : Value)
    (hl : client.locked = false) :
    AddParam client k v =
      some { client with locked := false, params := some (mapSet (client.params.getD []) k v) } := by
  obtain ⟨locked, params, appId, appSecret, mchId⟩ := client
  simp only at hl
  subst hl
  cases params <;> simp [AddParam]

theorem DelParam_eq (client : myWeClient) (k : String) (hl : client.locked = false) :
    DelParam client k =
      some (match client.params with
        | none => { client with locked := true }
        | some p => { client with params := some (mapDelete p k), locked := false }) := by
  obtain ⟨locked, params, appId, appSecret, mchId⟩ := client
  simp only at hl
  subst hl
  cases params <;> simp [DelParam]

/-- C18: on a client whose mutex is free, `AddParam k v` returns with `k` mapped to `v`
and every other key as before, and `DelParam k` returns with `k` absent and every other
key as before; neither has an error result, and the identity of the client is
unchanged. -/
theorem AddParam_DelParam_frame (client : myWeClient) (k : String) (v : Value)
    (hl : client.locked = false) :
    (∃ c, AddParam client k v = some c ∧ clientGet c k = some v ∧
      (∀ k', k' ≠ k → clientGet c k' = clientGet client k') ∧
      c.appId = client.appId ∧ c.appSecret = client.appSecret ∧ c.mchId = client.mchId) ∧
    (∃ c, DelParam client k = some c ∧ clientGet c k = none ∧
      (∀ k', k' ≠ k → clientGet c k' = clientGet client k') ∧
      c.appId = client.appId ∧ c.appSecret = client.appSecret ∧ c.mchId = client.mchId) := by
  constructor
  · refine ⟨_, AddParam_eq client k v hl, ?_, ?_, rfl, rfl, rfl⟩
    · simp [clientGet, mapGet_mapSet_same]
    · intro k' hk'
      have hne : k ≠ k' := fun e => hk' e.symm
      cases hp : client.params with
      | none => simp [clientGet, hp, mapGet_mapSet_ne _ _ _ _ hne, mapGet, hne]
      | some p => simp [clientGet, hp, mapGet_mapSet_ne _ _ _ _ hne]
  · refine ⟨_, DelParam_eq client k hl, ?_, ?_, ?_, ?_, ?_⟩
    · cases hp : client.params with
      | none => simp [clientGet, hp]
      | some p => simp [clientGet, hp, mapGet_mapDelete_same]
    · intro k' hk'
      have hne : k ≠ k' := fun e => hk' e.symm
      cases hp : client.params with
      | none => simp [clientGet, hp]
      | some p => simp [clientGet, hp, mapGet_mapDelete_ne _ _ _ hne]
    · cases hp : client.params <;> simp [hp]
    · cases hp : client.params <;> simp [hp]
    · cases hp : client.params <;> simp [hp]

/-- C18, at the client built by `NewClientWithParam`. -/
theorem AddParam_DelParam_frame_witness :
    (NewClientWithParam "wx1" "s" "m1").locked = false ∧
    (∃ c, AddParam (NewClientWithParam "wx1" "s" "m1") "body" (.str "b") = some c ∧
      clientGet c "body" = some (.str "b") ∧
      (∀ k', k' ≠ "body" → clientGet c k' = clientGet (NewClientWithParam "wx1" "s" "m1") k') ∧
      c.appId = (NewClientWithParam "wx1" "s" "m1").appId ∧
      c.appSecret = (NewClientWithParam "wx1" "s" "m1").appSecret ∧
      c.mchId = (NewClientWithParam "wx1" "s" "m1").mchId) :=
  ⟨rfl, (AddParam_DelParam_frame (NewClientWithParam "wx1" "s" "m1") "body" (.str "b") rfl).1⟩

/-- The invariant of the client: the map is not nil and the mutex is free. -/
theorem applyOp_invariant (client : myWeClient) (op : ClientOp)
    (hp : client.params ≠ none) (hl : client.locked = false) :
    ∃ c, applyOp client op = some c ∧ c.params ≠ none ∧ c.locked = false := by
  obtain ⟨locked, params, appId, appSecret, mchId⟩ := client
  simp only at hl hp
  subst hl
  cases params with
  | none => exact absurd rfl hp
  | some p =>
    cases op with
    | setParams param => cases param <;> simp [applyOp, SetParams]
    | addParam key value => simp [applyOp, AddParam]
    | addParams params => cases params <;> simp [applyOp, AddParams]
    | delParam key => simp [applyOp, DelParam]

theorem runOps_invariant (client : myWeClient) (ops : List ClientOp)
    (hp : client.params ≠ none) (hl : client.locked = false) :
    ∃ c, runOps client ops = some c ∧ c.params ≠ none ∧ c.locked = false := by
  induction ops generalizing client with
  | nil => exact ⟨client, rfl, hp, hl⟩
  | cons op ops ih =>
    obtain ⟨c, hc, hp', hl'⟩ := applyOp_invariant client op hp hl
    obtain ⟨c', hc', hinv⟩ := ih c hp' hl'
    exact ⟨c', by simp [runOps, hc, hc'], hinv⟩

/-- C19: every sequence of `SetParams`, `AddParam`, `AddParams` and `DelParam` (nil
arguments included) on the client built by `NewClientWithParam` returns, and in the
state it reaches the parameter map is not nil and the mutex is free; so a further
`DelParam` takes the branch that deletes and unlocks, never the branch for a nil map
that returns with the mutex held. -/
theorem client_reachable_invariant (appId appSecret mchId : String) (ops : List ClientOp) :
    ∃ c, runOps (NewClientWithParam appId appSecret mchId) ops = some c ∧
      c.locked = false ∧
      ∃ p, c.params = some p ∧
        ∀ key, DelParam c key = some { c with params := some (mapDelete p key), locked := false } := by
  obtain ⟨c, hc, hp, hl⟩ :=
    runOps_invariant (NewClientWithParam appId appSecret mchId) ops (by simp [NewClientWithParam])
      rfl
  cases hpc : c.params with
  | none => exact absurd hpc hp
  | some p =>
    refine ⟨c, hc, hl, p, hpc, fun key => ?_⟩
    rw [DelParam_eq c key hl, hpc]

/-! ## The two views of `refundNotifyResult` -/

theorem reflectFields_resolve (r : refundNotifyResult) :
    (reflectFields r).map (fun e => (tagName e.1, e.2))
      = (declaredFields r).map (fun e => (some e.1, e.2)) := by
  rfl

theorem declaredFields_tags (r : refundNotifyResult) :
    (declaredFields r).map Prod.fst = declaredTags := by
  rfl

theorem listLoop_resolved (fs gs : List (String × FieldVal)) (p : Params)
    (h : fs.map (fun e => (tagName e.1, e.2)) = gs.map (fun e => (some e.1, e.2))) :
    listLoop fs p =
      .ok (gs.foldl (fun acc e => if e.2.IsZero then acc else mapSet acc e.1 e.2.Interface) p) := by
  induction fs generalizing gs p with
  | nil =>
    cases gs with
    | nil => rfl
    | cons g gs => simp at h
  | cons f fs ih =>
    cases gs with
    | nil => simp at h
    | cons g gs =>
      obtain ⟨tag, v⟩ := f
      obtain ⟨name, w⟩ := g
      simp only [List.map_cons, List.cons.injEq, Prod.mk.injEq] at h
      obtain ⟨⟨hname, hv⟩, hrest⟩ := h
      subst hv
      by_cases hz : v.IsZero = true
      · simp [listLoop, hz, ih gs p hrest]
      · simp [listLoop, hz, hname, ih gs _ hrest]

theorem foldl_fields_get (gs : List (String × FieldVal)) (p : Params) (k : String)
    (hnodup : (gs.map Prod.fst).Nodup) :
    (∀ v, (k, v) ∈ gs →
      mapGet (gs.foldl (fun acc e => if e.2.IsZero then acc else mapSet acc e.1 e.2.Interface) p) k
        = if v.IsZero then mapGet p k else some v.Interface) ∧
    (k ∉ gs.map Prod.fst →
      mapGet (gs.foldl (fun acc e => if e.2.IsZero then acc else mapSet acc e.1 e.2.Interface) p) k
        = mapGet p k) := by
  induction gs generalizing p with
  | nil => simp
  | cons g gs ih =>
    obtain ⟨name, w⟩ := g
    simp only [List.map_cons, List.nodup_cons] at hnodup
    obtain ⟨hname, hnd⟩ := hnodup
    have hstep : ∀ k', k' ≠ name →
        mapGet (if w.IsZero then p else mapSet p name w.Interface) k' = mapGet p k' := by
      intro k' hk'
      by_cases hz : w.IsZero = true
      · simp [hz]
      · simp [hz, mapGet_mapSet_ne _ _ _ _ (fun e => hk' e.symm)]
    constructor
    · intro v hv
      simp only [List.foldl_cons]
      rcases List.mem_cons.mp hv with e | e
      · obtain ⟨rfl, rfl⟩ := Prod.mk.inj e
        rw [(ih _ hnd).2 hname]
        by_cases hz : v.IsZero = true
        · simp [hz]
        · simp [hz, mapGet_mapSet_same]
      · have hne : k ≠ name := by
          rintro rfl
          exact hname (List.mem_map.mpr ⟨(k, v), e, rfl⟩)
        rw [(ih _ hnd).1 v e, hstep k hne]
    · intro hk
      simp only [List.map_cons, List.mem_cons, not_or] at hk
      simp only [List.foldl_cons]
      rw [(ih _ hnd).2 hk.2, hstep k hk.1]

theorem Param_of_declared (r : refundNotifyResult) (k : String) (v : FieldVal)
    (h : (k, v) ∈ declaredFields r) : r.Param k = .ok v.Interface := by
  simp only [declaredFields, List.mem_cons, Prod.mk.injEq, List.mem_singleton, List.not_mem_nil,
    or_false] at h
  rcases h with h | h | h | h | h | h | h | h | h | h | h | h | h | h | h | h | h <;>
  · obtain ⟨rfl, rfl⟩ := h
    rfl

theorem Param_of_undeclared (r : refundNotifyResult) (k : String) (h : k ∉ declaredTags) :
    r.Param k = .error (Err.new ("invalid key: " ++ k)) := by
  simp only [declaredTags, List.mem_cons, List.mem_singleton, List.not_mem_nil, or_false,
    not_or] at h
  unfold refundNotifyResult.Param
  split <;> first | rfl | simp_all

theorem declaredTags_nodup : declaredTags.Nodup := by
  decide

/-- C20: for every record, `ListParam` returns a bag whose keys are exactly the
declared tag names of the fields that hold a non-zero value; for every key of that
bag `Param` returns the value the bag holds, with no error; and `Param` returns the
`invalid key` error exactly for the keys that are not one of the seventeen declared
tag names. -/
theorem ListParam_Param_consistent (r : refundNotifyResult) :
    ∃ p, r.ListParam = .ok p ∧
      (∀ k, mapGet p k ≠ none ↔ ∃ v, (k, v) ∈ declaredFields r ∧ v.IsZero = false) ∧
      (∀ k v, mapGet p k = some v → r.Param k = .ok v) ∧
      (∀ k, r.Param k = .error (Err.new ("invalid key: " ++ k)) ↔ k ∉ declaredTags) := by
  have hnodup : ((declaredFields r).map Prod.fst).Nodup := by
    rw [declaredFields_tags]
    exact declaredTags_nodup
  have hget := fun k => foldl_fields_get (declaredFields r) [] k hnodup
  have hcases : ∀ k, k ∈ declaredTags → ∃ v, (k, v) ∈ declaredFields r := by
    intro k hk
    rw [← declaredFields_tags r] at hk
    obtain ⟨e, he, rfl⟩ := List.mem_map.mp hk
    exact ⟨e.2, he⟩
  refine ⟨_, listLoop_resolved _ _ [] (reflectFields_resolve r), fun k => ?_, fun k v hv => ?_,
    fun k => ?_⟩
  · constructor
    · intro hne
      by_cases hk : k ∈ declaredTags
      · obtain ⟨v, hv⟩ := hcases k hk
        refine ⟨v, hv, ?_⟩
        rw [(hget k).1 v hv] at hne
        by_cases hz : v.IsZero = true
        · simp [hz, mapGet] at hne
        · simpa using hz
      · rw [← declaredFields_tags r] at hk
        rw [(hget k).2 hk] at hne
        simp [mapGet] at hne
    · rintro ⟨v, hv, hz⟩
      rw [(hget k).1 v hv]
      simp [hz]
  · by_cases hk : k ∈ declaredTags
    · obtain ⟨w, hw⟩ := hcases k hk
      rw [(hget k).1 w hw] at hv
      by_cases hz : w.IsZero = true
      · simp [hz, mapGet] at hv
      · rw [if_neg hz] at hv
        rw [Param_of_declared r k w hw, Option.some.inj hv]
    · rw [← declaredFields_tags r] at hk
      rw [(hget k).2 hk] at hv
      simp [mapGet] at hv
  · constructor
    · intro herr hk
      obtain ⟨w, hw⟩ := hcases k hk
      rw [Param_of_declared r k w hw] at herr
      cases herr
    · exact Param_of_undeclared r k

end WechatSdk
